import Mathlib

/-!
# Verification of the MakeUofT microphone capture sketches

Shallow embedding of the three Arduino sketch variants in this repository:

* the robust Uno variant (`UnoMicDriver.ino`, first version): 8 kHz, 10-bit ADC,
  40 ms edge debounce, `STRT`×25 / `DONE`×10 sentinel bursts;
* the simple Uno variant (`UnoMicDriver.ino`, second version): 8 kHz, 10-bit ADC,
  200 ms blocking delay after a press, no sentinels;
* the ESP32 variant (`part_000`): 16 kHz, 12-bit ADC, `START` / `STOP` text lines,
  LED blink once per second of captured audio.

Each `loop()` body becomes a pure step function from an explicit state and the
iteration's external inputs (button level, `millis()`, `micros()`, ADC reading)
to a new state together with the list of observable side effects (LED writes,
serial bytes, text lines, blocking delays).  Unsigned 32-bit `unsigned long`
arithmetic is modelled on `Nat` with explicit reduction modulo `2^32`.
-/

/-- `2^32`, the modulus of Arduino `unsigned long` arithmetic. -/
def U32 : Nat := 4294967296

/-- Wraparound-safe unsigned 32-bit subtraction `a - b` as computed by the
sketches (`currentTime - lastSampleTime`, `nowMs - lastButtonChangeMs`). -/
def usub32 (a b : Nat) : Nat := (a % U32 + (U32 - b % U32)) % U32

/-- Reduce an integer into the `int16_t` range `[-32768, 32767]` by two's
complement wrapping, the effect of storing into an `int16_t`. -/
def toInt16 (x : Int) : Int := (x + 32768) % 65536 - 32768

/-- Uno PCM conversion, from `int16_t pcm = (adc - 512) << 6;`:
centre the 10-bit reading on its midpoint 512 and scale by `2^6`. -/
def pcm10 (adc : Nat) : Int := toInt16 (((adc : Int) - 512) * 64)

/-- ESP32 PCM conversion, from `int16_t sample = analogRead(micPin) - 2048;
sample <<= 4;`: the difference is truncated to `int16_t` first, then the
stored value is scaled by `2^4` with `int16_t` wrapping. -/
def pcm12 (adc : Nat) : Int := toInt16 (toInt16 ((adc : Int) - 2048) * 16)

/-- The two bytes of `Serial.write((uint8_t*)&pcm, 2)`: little-endian
two's-complement encoding of a signed 16-bit value. -/
def int16LEBytes (v : Int) : List Nat :=
  [(v % 65536).toNat % 256, (v % 65536).toNat / 256]

/-- Observable side effects of one loop iteration. -/
inductive Ev where
  /-- `digitalWrite(recordingLedPin, …)`; `true` is `HIGH`. -/
  | led : Bool → Ev
  /-- `Serial.write` of raw bytes. -/
  | ser : List Nat → Ev
  /-- `Serial.println` of a text line. -/
  | line : String → Ev
  /-- `delay(ms)`. -/
  | delayMs : Nat → Ev
deriving DecidableEq, Repr

/-- The ASCII bytes of `"STRT"`. -/
def strtBytes : List Nat := [83, 84, 82, 84]

/-- The ASCII bytes of `"DONE"`. -/
def doneBytes : List Nat := [68, 79, 78, 69]

/-- The start-marker burst of the robust Uno variant:
`for (int i = 0; i < 25; i++) { Serial.write("STRT", 4); delay(2); }`. -/
def strtBurst : List Ev := (List.replicate 25 [Ev.ser strtBytes, Ev.delayMs 2]).flatten

/-- The stop-marker burst of the robust Uno variant:
`for (int i = 0; i < 10; i++) { Serial.write("DONE", 4); delay(2); }`. -/
def doneBurst : List Ev := (List.replicate 10 [Ev.ser doneBytes, Ev.delayMs 2]).flatten

/-- Global state of the robust Uno sketch. -/
structure UnoState where
  recording : Bool
  sampleCount : Nat
  lastSampleTime : Nat
  lastButtonPressed : Bool
  lastButtonChangeMs : Nat
deriving DecidableEq, Repr

/-- External inputs read by one loop iteration. -/
structure LoopInput where
  /-- `digitalRead(buttonPin) == LOW` (pressed, active-low). -/
  buttonLow : Bool
  /-- `millis()`. -/
  nowMs : Nat
  /-- `micros()`. -/
  nowUs : Nat
  /-- `analogRead(micPin)`. -/
  adc : Nat
deriving DecidableEq, Repr

/-- State at power-on for the robust Uno sketch. -/
def initUno : UnoState :=
  { recording := false, sampleCount := 0, lastSampleTime := 0,
    lastButtonPressed := false, lastButtonChangeMs := 0 }

/-- `sampleRate` of the Uno variants. -/
def sampleRate : Nat := 8000

/-- `sampleInterval = 1000000UL / sampleRate` (125 µs). -/
def sampleInterval : Nat := 1000000 / sampleRate

/-- `maxSamples = sampleRate * 15` (120000 samples, 15 seconds). -/
def maxSamples : Nat := sampleRate * 15

/-- `debounceMs = 40`. -/
def debounceMs : Nat := 40

/-- The debounce bookkeeping at the top of the robust Uno `loop()`:
on a raw level change, record the time of the change. -/
def debounceStep (s : UnoState) (i : LoopInput) : UnoState :=
  if i.buttonLow != s.lastButtonPressed then
    { s with lastButtonPressed := i.buttonLow, lastButtonChangeMs := i.nowMs % U32 }
  else s

/-- `stablePressed = pressedNow && (nowMs - lastButtonChangeMs) > debounceMs`,
evaluated after the debounce bookkeeping. -/
def stablePressedB (s : UnoState) (i : LoopInput) : Bool :=
  i.buttonLow && decide (debounceMs < usub32 i.nowMs s.lastButtonChangeMs)

/-- The session-start branch of the robust Uno `loop()`: on a stable press while
idle, reset the sample counter, raise the LED, burst the start marker, and
apply the 20 ms guard delay. -/
def startStep (s : UnoState) (i : LoopInput) : UnoState × List Ev :=
  if stablePressedB s i && !s.recording then
    ({ s with recording := true, sampleCount := 0 },
      Ev.led true :: strtBurst ++ [Ev.delayMs 20])
  else (s, [])

/-- The sampling branch of the robust Uno `loop()`: while recording, if an
interval has elapsed (wraparound-safe), take one ADC reading, emit its
2-byte PCM encoding, and stop after `maxSamples` samples with the LED
lowered and the stop burst emitted. -/
def sampleStep (s : UnoState) (i : LoopInput) : UnoState × List Ev :=
  if s.recording then
    if sampleInterval ≤ usub32 i.nowUs s.lastSampleTime then
      let s1 : UnoState :=
        { s with lastSampleTime := i.nowUs % U32, sampleCount := s.sampleCount + 1 }
      if maxSamples ≤ s1.sampleCount then
        ({ s1 with recording := false },
          Ev.ser (int16LEBytes (pcm10 i.adc)) :: Ev.led false :: doneBurst)
      else (s1, [Ev.ser (int16LEBytes (pcm10 i.adc))])
    else (s, [])
  else (s, [])

/-- One iteration of the robust Uno `loop()`. -/
def loopRobust (s : UnoState) (i : LoopInput) : UnoState × List Ev :=
  let s0 := debounceStep s i
  let p1 := startStep s0 i
  let p2 := sampleStep p1.1 i
  (p2.1, p1.2 ++ p2.2)

/-- Run the robust Uno loop over a list of per-iteration inputs, concatenating
the emitted events. -/
def runRobust (s : UnoState) : List LoopInput → UnoState × List Ev
  | [] => (s, [])
  | i :: rest =>
    let p := loopRobust s i
    let q := runRobust p.1 rest
    (q.1, p.2 ++ q.2)

/-- Global state of the simple Uno sketch (second version of the file):
no debounce bookkeeping, only the recording session state. -/
structure SimpleState where
  recording : Bool
  sampleCount : Nat
  lastSampleTime : Nat
deriving DecidableEq, Repr

/-- State at power-on for the simple Uno sketch. -/
def initSimple : SimpleState :=
  { recording := false, sampleCount := 0, lastSampleTime := 0 }

/-- The session-start branch of the simple Uno `loop()`: any LOW read while
idle starts a session (LED HIGH, 200 ms blocking delay, no serial marker). -/
def startStepSimple (s : SimpleState) (i : LoopInput) : SimpleState × List Ev :=
  if i.buttonLow && !s.recording then
    ({ s with recording := true, sampleCount := 0 },
      [Ev.led true, Ev.delayMs 200])
  else (s, [])

/-- The sampling branch of the simple Uno `loop()`: identical to the robust
variant except that the session end emits no marker. -/
def sampleStepSimple (s : SimpleState) (i : LoopInput) : SimpleState × List Ev :=
  if s.recording then
    if sampleInterval ≤ usub32 i.nowUs s.lastSampleTime then
      let s2 : SimpleState :=
        { s with lastSampleTime := i.nowUs % U32, sampleCount := s.sampleCount + 1 }
      if maxSamples ≤ s2.sampleCount then
        ({ s2 with recording := false },
          [Ev.ser (int16LEBytes (pcm10 i.adc)), Ev.led false])
      else (s2, [Ev.ser (int16LEBytes (pcm10 i.adc))])
    else (s, [])
  else (s, [])

/-- One iteration of the simple Uno `loop()`. -/
def loopSimple (s : SimpleState) (i : LoopInput) : SimpleState × List Ev :=
  let p1 := startStepSimple s i
  let p2 := sampleStepSimple p1.1 i
  (p2.1, p1.2 ++ p2.2)

/-- Run the simple Uno loop over a list of per-iteration inputs. -/
def runSimple (s : SimpleState) : List LoopInput → SimpleState × List Ev
  | [] => (s, [])
  | i :: rest =>
    let p := loopSimple s i
    let q := runSimple p.1 rest
    (q.1, p.2 ++ q.2)

/-- `sampleRate` of the ESP32 variant (16 kHz). -/
def sampleRateEsp : Nat := 16000

/-- `sampleInterval = 1000000 / sampleRate` of the ESP32 variant (62 µs,
integer division of 62.5). -/
def sampleIntervalEsp : Nat := 1000000 / sampleRateEsp

/-- `maxSamples = sampleRate * 15` of the ESP32 variant (240000 samples). -/
def maxSamplesEsp : Nat := sampleRateEsp * 15

/-- Global state of the ESP32 sketch.  The LED level is tracked because the
blink reads it back with `digitalRead(recordingLedPin)`. -/
structure EspState where
  recording : Bool
  sampleCount : Nat
  lastSampleTime : Nat
  led : Bool
deriving DecidableEq, Repr

/-- State at power-on for the ESP32 sketch. -/
def initEsp : EspState :=
  { recording := false, sampleCount := 0, lastSampleTime := 0, led := false }

/-- The session-start branch of the ESP32 `loop()`: any LOW read while idle
starts a session (`START` line, LED HIGH, 200 ms delay). -/
def startStepEsp (s : EspState) (i : LoopInput) : EspState × List Ev :=
  if i.buttonLow && !s.recording then
    ({ s with recording := true, sampleCount := 0, led := true },
      [Ev.line "START", Ev.led true, Ev.delayMs 200])
  else (s, [])

/-- The sampling branch of the ESP32 `loop()`: while recording, each due
interval takes one 12-bit sample, toggles the LED whenever the sample count
reaches a multiple of `sampleRate`, and ends the session at `maxSamples`
with a `STOP` line and the LED driven LOW. -/
def sampleStepEsp (s : EspState) (i : LoopInput) : EspState × List Ev :=
  if s.recording then
    if sampleIntervalEsp ≤ usub32 i.nowUs s.lastSampleTime then
      let c := s.sampleCount + 1
      let sampleEv := Ev.ser (int16LEBytes (pcm12 i.adc))
      let blinkEvs : List Ev := if c % sampleRateEsp = 0 then [Ev.led (!s.led)] else []
      let led2 : Bool := if c % sampleRateEsp = 0 then !s.led else s.led
      if maxSamplesEsp ≤ c then
        ({ recording := false, sampleCount := c, lastSampleTime := i.nowUs % U32,
           led := false },
          sampleEv :: blinkEvs ++ [Ev.line "STOP", Ev.led false])
      else
        ({ recording := true, sampleCount := c, lastSampleTime := i.nowUs % U32,
           led := led2 },
          sampleEv :: blinkEvs)
    else (s, [])
  else (s, [])

/-- One iteration of the ESP32 `loop()`. -/
def loopEsp (s : EspState) (i : LoopInput) : EspState × List Ev :=
  let p1 := startStepEsp s i
  let p2 := sampleStepEsp p1.1 i
  (p2.1, p1.2 ++ p2.2)

/-- Run the ESP32 loop over a list of per-iteration inputs. -/
def runEsp (s : EspState) : List LoopInput → EspState × List Ev
  | [] => (s, [])
  | i :: rest =>
    let p := loopEsp s i
    let q := runEsp p.1 rest
    (q.1, p.2 ++ q.2)

/-- An event is a PCM payload sample exactly when it is a 2-byte serial write
(sentinel writes are 4-byte serial writes or text lines). -/
def isSampleEv : Ev → Bool
  | Ev.ser bs => bs.length == 2
  | _ => false

/-- Number of PCM payload samples among a list of events. -/
def payloadCount (evs : List Ev) : Nat := (evs.filter isSampleEv).length

/-- All raw serial bytes of a list of events, in emission order. -/
def serBytes : List Ev → List Nat
  | [] => []
  | Ev.ser bs :: rest => bs ++ serBytes rest
  | _ :: rest => serBytes rest

/-- An event is a sentinel emission: a serial write of 4 or more bytes
(the `STRT` / `DONE` markers) or a text line (`START` / `STOP`). -/
def isSentinelEv : Ev → Bool
  | Ev.ser bs => 4 ≤ bs.length
  | Ev.line _ => true
  | _ => false

/-- Number of idle-to-recording transitions (sessions started) along a run of
the robust Uno loop. -/
def countStarts (s : UnoState) : List LoopInput → Nat
  | [] => 0
  | i :: rest =>
    let s1 := (loopRobust s i).1
    (if !s.recording && s1.recording then 1 else 0) + countStarts s1 rest

/-- Run the robust Uno loop, collecting events up to and including the first
iteration after which `recording` is false; the flag reports whether such an
iteration was reached. -/
def runUntilStop (s : UnoState) : List LoopInput → List Ev × Bool
  | [] => ([], false)
  | i :: rest =>
    let p := loopRobust s i
    if p.1.recording then
      let q := runUntilStop p.1 rest
      (p.2 ++ q.1, q.2)
    else (p.2, true)

/-- Run the ESP32 loop, collecting events up to and including the first
iteration after which `recording` is false. -/
def runUntilStopEsp (s : EspState) : List LoopInput → List Ev × Bool
  | [] => ([], false)
  | i :: rest =>
    let p := loopEsp s i
    if p.1.recording then
      let q := runUntilStopEsp p.1 rest
      (p.2 ++ q.1, q.2)
    else (p.2, true)

/-- Whether one robust-Uno iteration accepts (takes) a sample. -/
def tookSample (s : UnoState) (i : LoopInput) : Bool :=
  let s1 := (startStep (debounceStep s i) i).1
  s1.recording && decide (sampleInterval ≤ usub32 i.nowUs s1.lastSampleTime)

/-- The `micros()` timestamps (reduced mod `2^32`) of the samples accepted
along a run of the robust Uno loop. -/
def sampleTimes (s : UnoState) : List LoopInput → List Nat
  | [] => []
  | i :: rest =>
    (if tookSample s i then [i.nowUs % U32] else []) ++
      sampleTimes (loopRobust s i).1 rest

/-- Whether one ESP32 iteration accepts (takes) a sample. -/
def tookSampleEsp (s : EspState) (i : LoopInput) : Bool :=
  let s1 := (startStepEsp s i).1
  s1.recording && decide (sampleIntervalEsp ≤ usub32 i.nowUs s1.lastSampleTime)

/-- The `micros()` timestamps (reduced mod `2^32`) of the samples accepted
along a run of the ESP32 loop. -/
def sampleTimesEsp (s : EspState) : List LoopInput → List Nat
  | [] => []
  | i :: rest =>
    (if tookSampleEsp s i then [i.nowUs % U32] else []) ++
      sampleTimesEsp (loopEsp s i).1 rest

/-! ## Basic lemmas about the PCM converter and byte encoding -/

/-- `usub32` ignores prior reduction of either argument mod `2^32`. -/
theorem usub32_mod_right (a b : Nat) : usub32 a (b % U32) = usub32 a b := by
  unfold usub32 U32
  omega

/-- `usub32` ignores prior reduction of the left argument mod `2^32`. -/
theorem usub32_mod_left (a b : Nat) : usub32 (a % U32) b = usub32 a b := by
  unfold usub32 U32
  omega

/-- C1: for every raw ADC reading in range, the PCM converters compute
`(reading − midpoint) × 2^(16−resolution)`: midpoint 512 and factor `2^6` in
the 10-bit Uno variants, midpoint 2048 and factor `2^4` in the 12-bit ESP32
variant. -/
theorem c1_pcm_formula (r : Nat) :
    (r ≤ 1023 → pcm10 r = ((r : Int) - 512) * 64) ∧
    (r ≤ 4095 → pcm12 r = ((r : Int) - 2048) * 16) := by
  constructor
  · intro h
    unfold pcm10 toInt16
    omega
  · intro h
    unfold pcm12 toInt16
    omega

/-- Witness for C1 at the extreme in-range readings 1023 and 4095. -/
theorem c1_pcm_witness :
    (1023 ≤ 1023 ∧ pcm10 1023 = ((1023 : Int) - 512) * 64) ∧
    (4095 ≤ 4095 ∧ pcm12 4095 = ((4095 : Int) - 2048) * 16) :=
  ⟨⟨by decide, (c1_pcm_formula 1023).1 (by decide)⟩,
   ⟨by decide, (c1_pcm_formula 4095).2 (by decide)⟩⟩

/-- A recording-in-progress state of the robust Uno sketch used for the
synthetic round-trip scenario. -/
def c2State : UnoState :=
  { recording := true, sampleCount := 0, lastSampleTime := 0,
    lastButtonPressed := false, lastButtonChangeMs := 0 }

/-- Four loop iterations delivering the synthetic 10-bit ADC sequence
`[512, 512, 1023, 0]`, each one sample interval (125 µs) apart. -/
def c2Inputs : List LoopInput :=
  [{ buttonLow := false, nowMs := 0, nowUs := 125, adc := 512 },
   { buttonLow := false, nowMs := 0, nowUs := 250, adc := 512 },
   { buttonLow := false, nowMs := 0, nowUs := 375, adc := 1023 },
   { buttonLow := false, nowMs := 0, nowUs := 500, adc := 0 }]

/-- C2: on the synthetic ADC sequence `[512, 512, 1023, 0]`, the robust Uno
loop emits exactly the little-endian two's-complement PCM bytes
`00 00, 00 00, C0 7F, 00 80`. -/
theorem c2_byte_stream :
    serBytes (runRobust c2State c2Inputs).2 =
      [0x00, 0x00, 0x00, 0x00, 0xC0, 0x7F, 0x00, 0x80] := by decide

/-! ## Step-characterisation lemmas for the robust Uno loop -/

@[simp] theorem debounceStep_recording (s : UnoState) (i : LoopInput) :
    (debounceStep s i).recording = s.recording := by
  unfold debounceStep; split <;> rfl

@[simp] theorem debounceStep_sampleCount (s : UnoState) (i : LoopInput) :
    (debounceStep s i).sampleCount = s.sampleCount := by
  unfold debounceStep; split <;> rfl

@[simp] theorem debounceStep_lastSampleTime (s : UnoState) (i : LoopInput) :
    (debounceStep s i).lastSampleTime = s.lastSampleTime := by
  unfold debounceStep; split <;> rfl

/-- The debounce bookkeeping is inert when the raw level matches the last read. -/
theorem debounceStep_same (s : UnoState) (i : LoopInput)
    (h : i.buttonLow = s.lastButtonPressed) : debounceStep s i = s := by
  unfold debounceStep; simp [h]

/-- The start branch is inert while a session is already in progress. -/
theorem startStep_of_recording (s : UnoState) (i : LoopInput)
    (h : s.recording = true) : startStep s i = (s, []) := by
  unfold startStep; rw [h]; simp

/-- While a session is in progress, a loop iteration is exactly the debounce
bookkeeping followed by the sampling branch. -/
theorem loopRobust_of_recording (s : UnoState) (i : LoopInput)
    (h : s.recording = true) :
    loopRobust s i = sampleStep (debounceStep s i) i := by
  have h0 : (debounceStep s i).recording = true := by simp [h]
  simp only [loopRobust, startStep_of_recording _ _ h0, List.nil_append]

/-- The sampling branch is inert while idle. -/
theorem sampleStep_of_idle (s : UnoState) (i : LoopInput)
    (h : s.recording = false) : sampleStep s i = (s, []) := by
  unfold sampleStep; rw [h]; simp

/-- The sampling branch is inert before the next interval is due. -/
theorem sampleStep_not_due (s : UnoState) (i : LoopInput)
    (h : usub32 i.nowUs s.lastSampleTime < sampleInterval) :
    sampleStep s i = (s, []) := by
  unfold sampleStep
  split
  · rw [if_neg (by omega)]
  · rfl

/-- A due sampling step mid-session: one sample is emitted and counted. -/
theorem sampleStep_due_mid (s : UnoState) (i : LoopInput)
    (hrec : s.recording = true)
    (hdue : sampleInterval ≤ usub32 i.nowUs s.lastSampleTime)
    (hc : s.sampleCount + 1 < maxSamples) :
    sampleStep s i =
      ({ s with
          lastSampleTime := i.nowUs % U32
          sampleCount := s.sampleCount + 1 },
        [Ev.ser (int16LEBytes (pcm10 i.adc))]) := by
  unfold sampleStep
  rw [hrec, if_pos rfl, if_pos hdue, if_neg (by simpa using Nat.not_le.mpr hc)]

/-- A due sampling step that completes the session: the final sample is
emitted, the LED is lowered and the `DONE` burst follows. -/
theorem sampleStep_due_stop (s : UnoState) (i : LoopInput)
    (hrec : s.recording = true)
    (hdue : sampleInterval ≤ usub32 i.nowUs s.lastSampleTime)
    (hc : maxSamples ≤ s.sampleCount + 1) :
    sampleStep s i =
      ({ s with
          recording := false
          lastSampleTime := i.nowUs % U32
          sampleCount := s.sampleCount + 1 },
        Ev.ser (int16LEBytes (pcm10 i.adc)) :: Ev.led false :: doneBurst) := by
  unfold sampleStep
  rw [hrec, if_pos rfl, if_pos hdue, if_pos (by simpa using hc)]

/-- Unfolded form of one robust-Uno loop iteration. -/
theorem loopRobust_eq (s : UnoState) (i : LoopInput) :
    loopRobust s i =
      ((sampleStep (startStep (debounceStep s i) i).1 i).1,
        (startStep (debounceStep s i) i).2 ++
          (sampleStep (startStep (debounceStep s i) i).1 i).2) := rfl

/-- The start branch when it fires. -/
theorem startStep_fires (s : UnoState) (i : LoopInput)
    (h : (stablePressedB s i && !s.recording) = true) :
    startStep s i =
      ({ s with recording := true, sampleCount := 0 },
        Ev.led true :: strtBurst ++ [Ev.delayMs 20]) := by
  unfold startStep; rw [if_pos h]

/-- The start branch when it does not fire. -/
theorem startStep_skips (s : UnoState) (i : LoopInput)
    (h : (stablePressedB s i && !s.recording) = false) :
    startStep s i = (s, []) := by
  unfold startStep; rw [h]; simp

/-- One loop iteration preserves the session invariant
`recording = true → sampleCount < maxSamples`. -/
theorem loopRobust_inv (s : UnoState) (i : LoopInput)
    (h : s.recording = true → s.sampleCount < maxSamples) :
    (loopRobust s i).1.recording = true →
      (loopRobust s i).1.sampleCount < maxSamples := by
  by_cases hr : s.recording = true
  · rw [loopRobust_of_recording s i hr]
    rcases Nat.lt_or_ge (usub32 i.nowUs s.lastSampleTime) sampleInterval with hd | hd
    · rw [sampleStep_not_due _ _ (by simpa using hd)]
      intro _; simpa using h hr
    · rcases Nat.lt_or_ge (s.sampleCount + 1) maxSamples with hc | hc
      · rw [sampleStep_due_mid _ _ (by simpa using hr) (by simpa using hd)
          (by simpa using hc)]
        intro _; simpa using hc
      · rw [sampleStep_due_stop _ _ (by simpa using hr) (by simpa using hd)
          (by simpa using hc)]
        intro hfalse; simp at hfalse
  · rw [loopRobust_eq]
    rcases hs : (stablePressedB (debounceStep s i) i && !(debounceStep s i).recording)
      with _ | _
    · rw [startStep_skips _ _ hs, sampleStep_of_idle _ _ (by simpa using hr)]
      intro hfalse
      simp at hfalse
      exact absurd hfalse hr
    · rw [startStep_fires _ _ hs]
      rcases Nat.lt_or_ge (usub32 i.nowUs s.lastSampleTime) sampleInterval
        with hd | hd
      · rw [sampleStep_not_due _ _ (by simpa using hd)]
        intro _
        show 0 < maxSamples
        decide
      · rw [sampleStep_due_mid _ _ (by simp) (by simpa using hd) (by simp; decide)]
        intro _
        show 0 + 1 < maxSamples
        decide

/-- The session invariant holds in every state reachable from power-on. -/
theorem runRobust_inv (inputs : List LoopInput) : ∀ s : UnoState,
    (s.recording = true → s.sampleCount < maxSamples) →
    (runRobust s inputs).1.recording = true →
      (runRobust s inputs).1.sampleCount < maxSamples := by
  induction inputs with
  | nil => intro s h; simpa [runRobust] using h
  | cons i rest ih =>
    intro s h
    simp only [runRobust]
    exact ih _ (loopRobust_inv s i h)

/-- From a mid-session state, the next iteration clears `recording` exactly
when it brings `sampleCount` to `maxSamples`. -/
theorem loopRobust_stop_iff (s : UnoState) (i : LoopInput)
    (hrec : s.recording = true) (hcount : s.sampleCount < maxSamples) :
    ((loopRobust s i).1.recording = false ↔
      (loopRobust s i).1.sampleCount = maxSamples) := by
  rw [loopRobust_of_recording s i hrec]
  rcases Nat.lt_or_ge (usub32 i.nowUs s.lastSampleTime) sampleInterval with hd | hd
  · rw [sampleStep_not_due _ _ (by simpa using hd)]
    simp [hrec]
    omega
  · rcases Nat.lt_or_ge (s.sampleCount + 1) maxSamples with hc | hc
    · rw [sampleStep_due_mid _ _ (by simpa using hrec) (by simpa using hd)
        (by simpa using hc)]
      simp [hrec]
      omega
    · rw [sampleStep_due_stop _ _ (by simpa using hrec) (by simpa using hd)
        (by simpa using hc)]
      simp
      omega

/-- Inputs that press and hold the button long enough to start a session. -/
def c4Inputs : List LoopInput :=
  [{ buttonLow := true, nowMs := 0, nowUs := 0, adc := 512 },
   { buttonLow := true, nowMs := 100, nowUs := 0, adc := 512 }]

/-- While a robust-Uno session is in progress, the button level has no effect
on the iteration's side effects nor on the recording flag, the sample
counter, or the sampling clock; only the debounce bookkeeping fields can
differ. -/
theorem loopRobust_trigger_no_effect (s : UnoState) (i : LoopInput)
    (h : s.recording = true) :
    (loopRobust s i).2 = (loopRobust s { i with buttonLow := false }).2 ∧
    (loopRobust s i).1.recording
      = (loopRobust s { i with buttonLow := false }).1.recording ∧
    (loopRobust s i).1.sampleCount
      = (loopRobust s { i with buttonLow := false }).1.sampleCount ∧
    (loopRobust s i).1.lastSampleTime
      = (loopRobust s { i with buttonLow := false }).1.lastSampleTime := by
  rw [loopRobust_of_recording s i h, loopRobust_of_recording s _ h]
  rcases Nat.lt_or_ge (usub32 i.nowUs s.lastSampleTime) sampleInterval with hd | hd
  · rw [sampleStep_not_due _ _ (by simpa using hd),
      sampleStep_not_due _ _ (by simpa using hd)]
    simp
  · rcases Nat.lt_or_ge (s.sampleCount + 1) maxSamples with hc | hc
    · rw [sampleStep_due_mid _ _ (by simpa using h) (by simpa using hd)
        (by simpa using hc),
        sampleStep_due_mid _ _ (by simpa using h) (by simpa using hd)
        (by simpa using hc)]
      simp
    · rw [sampleStep_due_stop _ _ (by simpa using h) (by simpa using hd)
        (by simpa using hc),
        sampleStep_due_stop _ _ (by simpa using h) (by simpa using hd)
        (by simpa using hc)]
      simp

/-! ## C5: sampling scheduler, robust Uno side -/

/-- `payloadCount` is additive over concatenation. -/
theorem payloadCount_append (xs ys : List Ev) :
    payloadCount (xs ++ ys) = payloadCount xs + payloadCount ys := by
  unfold payloadCount
  simp [List.filter_append]

/-- A PCM sample write is two bytes. -/
@[simp] theorem int16LEBytes_length (v : Int) : (int16LEBytes v).length = 2 := rfl

/-- A PCM sample write is a payload event. -/
theorem isSampleEv_pcm (v : Int) : isSampleEv (Ev.ser (int16LEBytes v)) = true := by
  simp [isSampleEv, int16LEBytes]

/-- The `DONE` burst contains no payload events. -/
theorem payloadCount_doneBurst : payloadCount doneBurst = 0 := by decide

/-- The start branch emits no payload events. -/
theorem payloadCount_startStep (s : UnoState) (i : LoopInput) :
    payloadCount (startStep s i).2 = 0 := by
  unfold startStep
  split
  · show payloadCount (Ev.led true :: strtBurst ++ [Ev.delayMs 20]) = 0
    decide
  · rfl

@[simp] theorem startStep_fst_lastSampleTime (s : UnoState) (i : LoopInput) :
    (startStep s i).1.lastSampleTime = s.lastSampleTime := by
  unfold startStep; split <;> simp

/-- A due sampling step updates the sampling clock to the current `micros()`
reading and emits exactly one payload sample. -/
theorem sampleStep_took_shape (s1 : UnoState) (i : LoopInput)
    (hr : s1.recording = true)
    (hd : sampleInterval ≤ usub32 i.nowUs s1.lastSampleTime) :
    (sampleStep s1 i).1.lastSampleTime = i.nowUs % U32 ∧
    payloadCount (sampleStep s1 i).2 = 1 := by
  rcases Nat.lt_or_ge (s1.sampleCount + 1) maxSamples with hc | hc
  · rw [sampleStep_due_mid _ _ hr hd hc]
    refine ⟨by simp, ?_⟩
    simp [payloadCount, List.filter_cons, isSampleEv_pcm]
  · rw [sampleStep_due_stop _ _ hr hd hc]
    refine ⟨by simp, ?_⟩
    have h0 := payloadCount_doneBurst
    unfold payloadCount at h0 ⊢
    simp [List.filter_cons, isSampleEv, h0]

/-- A skipped sampling step leaves state and output untouched. -/
theorem sampleStep_skip (s1 : UnoState) (i : LoopInput)
    (h : ¬(s1.recording = true ∧ sampleInterval ≤ usub32 i.nowUs s1.lastSampleTime)) :
    sampleStep s1 i = (s1, []) := by
  rcases hr : s1.recording
  · exact sampleStep_of_idle _ _ hr
  · refine sampleStep_not_due _ _ ?_
    rcases Nat.lt_or_ge (usub32 i.nowUs s1.lastSampleTime) sampleInterval with hlt | hge
    · exact hlt
    · exact absurd ⟨hr, hge⟩ h

/-- Unfolding `tookSample` into its two conjuncts. -/
theorem tookSample_iff (s : UnoState) (i : LoopInput) :
    tookSample s i = true ↔
      ((startStep (debounceStep s i) i).1.recording = true ∧
        sampleInterval ≤ usub32 i.nowUs s.lastSampleTime) := by
  unfold tookSample
  rw [Bool.and_eq_true, decide_eq_true_iff]
  simp

/-- Each robust-Uno iteration emits exactly one payload sample when the
scheduler accepts one, and none otherwise. -/
theorem loopRobust_payload (s : UnoState) (i : LoopInput) :
    payloadCount (loopRobust s i).2 = if tookSample s i then 1 else 0 := by
  rw [loopRobust_eq]
  simp only [payloadCount_append, payloadCount_startStep, Nat.zero_add]
  by_cases ht : tookSample s i = true
  · rw [if_pos ht]
    rcases (tookSample_iff s i).mp ht with ⟨hr, hd⟩
    exact (sampleStep_took_shape _ _ hr (by simpa using hd)).2
  · rw [if_neg ht]
    rw [sampleStep_skip _ _ ?_]
    · rfl
    · intro hcontra
      exact ht ((tookSample_iff s i).mpr ⟨hcontra.1, by simpa using hcontra.2⟩)

/-- The sampling clock after an iteration: the current `micros()` reading if a
sample was accepted, otherwise unchanged. -/
theorem loopRobust_lastSampleTime (s : UnoState) (i : LoopInput) :
    (loopRobust s i).1.lastSampleTime =
      (if tookSample s i then i.nowUs % U32 else s.lastSampleTime) := by
  rw [loopRobust_eq]
  by_cases ht : tookSample s i = true
  · rw [if_pos ht]
    rcases (tookSample_iff s i).mp ht with ⟨hr, hd⟩
    exact (sampleStep_took_shape _ _ hr (by simpa using hd)).1
  · rw [if_neg ht]
    rw [sampleStep_skip _ _ ?_]
    · simp
    · intro hcontra
      exact ht ((tookSample_iff s i).mpr ⟨hcontra.1, by simpa using hcontra.2⟩)

/-- Consecutive accepted samples of the robust Uno scheduler are at least one
sample interval apart, in wraparound-safe `micros()` distance, with the
initial `lastSampleTime` as baseline. -/
theorem sampleTimes_chain (inputs : List LoopInput) : ∀ s : UnoState,
    List.Chain' (fun a b => sampleInterval ≤ usub32 b a)
      (s.lastSampleTime :: sampleTimes s inputs) := by
  induction inputs with
  | nil => intro s; simp [sampleTimes]
  | cons i rest ih =>
    intro s
    by_cases ht : tookSample s i = true
    · have hchain := ih (loopRobust s i).1
      rw [loopRobust_lastSampleTime, if_pos ht] at hchain
      simp only [sampleTimes, ht, if_pos, List.cons_append, List.nil_append]
      refine List.Chain'.cons ?_ hchain
      rcases (tookSample_iff s i).mp ht with ⟨_, hd⟩
      rw [usub32_mod_left]
      exact hd
    · have hchain := ih (loopRobust s i).1
      rw [loopRobust_lastSampleTime, if_neg ht] at hchain
      simpa only [sampleTimes, ht, if_neg, List.nil_append] using hchain

/-! ## C5: sampling scheduler, ESP32 side -/

/-- Unfolded form of one ESP32 loop iteration. -/
theorem loopEsp_eq (s : EspState) (i : LoopInput) :
    loopEsp s i =
      ((sampleStepEsp (startStepEsp s i).1 i).1,
        (startStepEsp s i).2 ++ (sampleStepEsp (startStepEsp s i).1 i).2) := rfl

/-- The ESP32 start branch is inert while a session is already in progress. -/
theorem startStepEsp_of_recording (s : EspState) (i : LoopInput)
    (h : s.recording = true) : startStepEsp s i = (s, []) := by
  unfold startStepEsp; rw [h]; simp

@[simp] theorem startStepEsp_fst_lastSampleTime (s : EspState) (i : LoopInput) :
    (startStepEsp s i).1.lastSampleTime = s.lastSampleTime := by
  unfold startStepEsp; split <;> simp

/-- The ESP32 start branch emits no payload events. -/
theorem payloadCount_startStepEsp (s : EspState) (i : LoopInput) :
    payloadCount (startStepEsp s i).2 = 0 := by
  unfold startStepEsp
  split
  · rfl
  · rfl

/-- The ESP32 sampling branch is inert while idle. -/
theorem sampleStepEsp_of_idle (s : EspState) (i : LoopInput)
    (h : s.recording = false) : sampleStepEsp s i = (s, []) := by
  unfold sampleStepEsp; rw [h]; simp

/-- The ESP32 sampling branch is inert before the next interval is due. -/
theorem sampleStepEsp_not_due (s : EspState) (i : LoopInput)
    (h : usub32 i.nowUs s.lastSampleTime < sampleIntervalEsp) :
    sampleStepEsp s i = (s, []) := by
  unfold sampleStepEsp
  split
  · rw [if_neg (by omega)]
  · rfl

/-- A due ESP32 sampling step mid-session: one sample, plus an LED toggle
whenever the new count is a multiple of the sample rate. -/
theorem sampleStepEsp_due_mid (s1 : EspState) (i : LoopInput)
    (hr : s1.recording = true)
    (hd : sampleIntervalEsp ≤ usub32 i.nowUs s1.lastSampleTime)
    (hc : s1.sampleCount + 1 < maxSamplesEsp) :
    sampleStepEsp s1 i =
      ({ recording := true
         sampleCount := s1.sampleCount + 1
         lastSampleTime := i.nowUs % U32
         led := if (s1.sampleCount + 1) % sampleRateEsp = 0 then !s1.led else s1.led },
        Ev.ser (int16LEBytes (pcm12 i.adc)) ::
          (if (s1.sampleCount + 1) % sampleRateEsp = 0 then [Ev.led (!s1.led)]
            else [])) := by
  unfold sampleStepEsp
  rw [hr, if_pos rfl, if_pos hd, if_neg (by omega)]

/-- A due ESP32 sampling step that completes the session: the final sample,
any blink toggle, then the `STOP` line and the LED driven LOW. -/
theorem sampleStepEsp_due_stop (s1 : EspState) (i : LoopInput)
    (hr : s1.recording = true)
    (hd : sampleIntervalEsp ≤ usub32 i.nowUs s1.lastSampleTime)
    (hc : maxSamplesEsp ≤ s1.sampleCount + 1) :
    sampleStepEsp s1 i =
      ({ recording := false
         sampleCount := s1.sampleCount + 1
         lastSampleTime := i.nowUs % U32
         led := false },
        Ev.ser (int16LEBytes (pcm12 i.adc)) ::
          (if (s1.sampleCount + 1) % sampleRateEsp = 0 then [Ev.led (!s1.led)]
            else []) ++ [Ev.line "STOP", Ev.led false]) := by
  unfold sampleStepEsp
  rw [hr, if_pos rfl, if_pos hd, if_pos hc]

/-- A due ESP32 sampling step updates the sampling clock and emits exactly one
payload sample. -/
theorem sampleStepEsp_took_shape (s1 : EspState) (i : LoopInput)
    (hr : s1.recording = true)
    (hd : sampleIntervalEsp ≤ usub32 i.nowUs s1.lastSampleTime) :
    (sampleStepEsp s1 i).1.lastSampleTime = i.nowUs % U32 ∧
    payloadCount (sampleStepEsp s1 i).2 = 1 := by
  rcases Nat.lt_or_ge (s1.sampleCount + 1) maxSamplesEsp with hc | hc
  · rw [sampleStepEsp_due_mid _ _ hr hd hc]
    refine ⟨rfl, ?_⟩
    split <;> simp [payloadCount, List.filter_cons, isSampleEv]
  · rw [sampleStepEsp_due_stop _ _ hr hd hc]
    refine ⟨rfl, ?_⟩
    split <;> simp [payloadCount, List.filter_cons, List.filter_append, isSampleEv]

/-- A skipped ESP32 sampling step leaves state and output untouched. -/
theorem sampleStepEsp_skip (s1 : EspState) (i : LoopInput)
    (h : ¬(s1.recording = true ∧ sampleIntervalEsp ≤ usub32 i.nowUs s1.lastSampleTime)) :
    sampleStepEsp s1 i = (s1, []) := by
  rcases hr : s1.recording
  · exact sampleStepEsp_of_idle _ _ hr
  · refine sampleStepEsp_not_due _ _ ?_
    rcases Nat.lt_or_ge (usub32 i.nowUs s1.lastSampleTime) sampleIntervalEsp with hlt | hge
    · exact hlt
    · exact absurd ⟨hr, hge⟩ h

/-- Unfolding `tookSampleEsp` into its two conjuncts. -/
theorem tookSampleEsp_iff (s : EspState) (i : LoopInput) :
    tookSampleEsp s i = true ↔
      ((startStepEsp s i).1.recording = true ∧
        sampleIntervalEsp ≤ usub32 i.nowUs s.lastSampleTime) := by
  unfold tookSampleEsp
  rw [Bool.and_eq_true, decide_eq_true_iff]
  simp

/-- Each ESP32 iteration emits exactly one payload sample when the scheduler
accepts one, and none otherwise. -/
theorem loopEsp_payload (s : EspState) (i : LoopInput) :
    payloadCount (loopEsp s i).2 = if tookSampleEsp s i then 1 else 0 := by
  rw [loopEsp_eq]
  simp only [payloadCount_append, payloadCount_startStepEsp, Nat.zero_add]
  by_cases ht : tookSampleEsp s i = true
  · rw [if_pos ht]
    rcases (tookSampleEsp_iff s i).mp ht with ⟨hr, hd⟩
    exact (sampleStepEsp_took_shape _ _ hr (by simpa using hd)).2
  · rw [if_neg ht]
    rw [sampleStepEsp_skip _ _ ?_]
    · rfl
    · intro hcontra
      exact ht ((tookSampleEsp_iff s i).mpr ⟨hcontra.1, by simpa using hcontra.2⟩)

/-- The ESP32 sampling clock after an iteration. -/
theorem loopEsp_lastSampleTime (s : EspState) (i : LoopInput) :
    (loopEsp s i).1.lastSampleTime =
      (if tookSampleEsp s i then i.nowUs % U32 else s.lastSampleTime) := by
  rw [loopEsp_eq]
  by_cases ht : tookSampleEsp s i = true
  · rw [if_pos ht]
    rcases (tookSampleEsp_iff s i).mp ht with ⟨hr, hd⟩
    exact (sampleStepEsp_took_shape _ _ hr (by simpa using hd)).1
  · rw [if_neg ht]
    rw [sampleStepEsp_skip _ _ ?_]
    · simp
    · intro hcontra
      exact ht ((tookSampleEsp_iff s i).mpr ⟨hcontra.1, by simpa using hcontra.2⟩)

/-- Consecutive accepted samples of the ESP32 scheduler are at least one
sample interval apart, in wraparound-safe `micros()` distance. -/
theorem sampleTimesEsp_chain (inputs : List LoopInput) : ∀ s : EspState,
    List.Chain' (fun a b => sampleIntervalEsp ≤ usub32 b a)
      (s.lastSampleTime :: sampleTimesEsp s inputs) := by
  induction inputs with
  | nil => intro s; simp [sampleTimesEsp]
  | cons i rest ih =>
    intro s
    by_cases ht : tookSampleEsp s i = true
    · have hchain := ih (loopEsp s i).1
      rw [loopEsp_lastSampleTime, if_pos ht] at hchain
      simp only [sampleTimesEsp, ht, if_pos, List.cons_append, List.nil_append]
      refine List.Chain'.cons ?_ hchain
      rcases (tookSampleEsp_iff s i).mp ht with ⟨_, hd⟩
      rw [usub32_mod_left]
      exact hd
    · have hchain := ih (loopEsp s i).1
      rw [loopEsp_lastSampleTime, if_neg ht] at hchain
      simpa only [sampleTimesEsp, ht, if_neg, List.nil_append] using hchain

/-- C5: in both scheduler variants, each loop iteration accepts at most one
sample (emitting exactly one 2-byte payload write when it does), and any two
consecutive accepted samples are at least one sample interval apart —
125 µs on the 8 kHz Uno, 62 µs on the 16 kHz ESP32 — measured by
wraparound-safe unsigned 32-bit subtraction of their `micros()` readings. -/
theorem c5_scheduler_spacing :
    (∀ (s : UnoState) (i : LoopInput),
      payloadCount (loopRobust s i).2 = if tookSample s i then 1 else 0) ∧
    (∀ (s : UnoState) (inputs : List LoopInput),
      List.Chain' (fun a b => sampleInterval ≤ usub32 b a)
        (s.lastSampleTime :: sampleTimes s inputs)) ∧
    (∀ (s : EspState) (i : LoopInput),
      payloadCount (loopEsp s i).2 = if tookSampleEsp s i then 1 else 0) ∧
    (∀ (s : EspState) (inputs : List LoopInput),
      List.Chain' (fun a b => sampleIntervalEsp ≤ usub32 b a)
        (s.lastSampleTime :: sampleTimesEsp s inputs)) :=
  ⟨loopRobust_payload, fun s inputs => sampleTimes_chain inputs s,
   loopEsp_payload, fun s inputs => sampleTimesEsp_chain inputs s⟩

/-! ## C3: a session emits exactly `maxSamples` samples -/

/-- Along a run from a mid-session state that reaches the session's end, the
payload samples emitted up to the stop complete the count to `maxSamples`. -/
theorem runUntilStop_spec (inputs : List LoopInput) : ∀ s : UnoState,
    s.recording = true → s.sampleCount < maxSamples →
    (runUntilStop s inputs).2 = true →
    payloadCount (runUntilStop s inputs).1 + s.sampleCount = maxSamples := by
  induction inputs with
  | nil => intro s _ _ hdone; simp [runUntilStop] at hdone
  | cons i rest ih =>
    intro s hrec hcount hdone
    rcases Nat.lt_or_ge (usub32 i.nowUs s.lastSampleTime) sampleInterval with hd | hd
    · have hstep : loopRobust s i = (debounceStep s i, []) := by
        rw [loopRobust_of_recording s i hrec, sampleStep_not_due _ _ (by simpa using hd)]
      simp only [runUntilStop, hstep] at hdone ⊢
      rw [if_pos (by simp [hrec])] at hdone ⊢
      have h2 := ih (debounceStep s i) (by simp [hrec]) (by simpa using hcount) hdone
      simpa using h2
    · rcases Nat.lt_or_ge (s.sampleCount + 1) maxSamples with hc | hc
      · have hstep : loopRobust s i =
            ({ debounceStep s i with
                lastSampleTime := i.nowUs % U32
                sampleCount := (debounceStep s i).sampleCount + 1 },
              [Ev.ser (int16LEBytes (pcm10 i.adc))]) := by
          rw [loopRobust_of_recording s i hrec,
            sampleStep_due_mid _ _ (by simpa using hrec) (by simpa using hd)
              (by simpa using hc)]
        simp only [runUntilStop, hstep] at hdone ⊢
        rw [if_pos (by simp [hrec])] at hdone ⊢
        have h2 := ih _ (by simp [hrec]) (by simpa using hc) hdone
        rw [payloadCount_append] at *
        have h3 : payloadCount [Ev.ser (int16LEBytes (pcm10 i.adc))] = 1 := by
          simp [payloadCount, List.filter_cons, isSampleEv]
        simp only [debounceStep_sampleCount] at h2 ⊢
        omega
      · have hstep : loopRobust s i =
            ({ debounceStep s i with
                recording := false
                lastSampleTime := i.nowUs % U32
                sampleCount := (debounceStep s i).sampleCount + 1 },
              Ev.ser (int16LEBytes (pcm10 i.adc)) :: Ev.led false :: doneBurst) := by
          rw [loopRobust_of_recording s i hrec,
            sampleStep_due_stop _ _ (by simpa using hrec) (by simpa using hd)
              (by simpa using hc)]
        simp only [runUntilStop, hstep]
        rw [if_neg (by simp)]
        have h3 : payloadCount
            (Ev.ser (int16LEBytes (pcm10 i.adc)) :: Ev.led false :: doneBurst) = 1 := by
          have h0 := payloadCount_doneBurst
          unfold payloadCount at h0 ⊢
          simp [List.filter_cons, isSampleEv, h0]
        show payloadCount
            (Ev.ser (int16LEBytes (pcm10 i.adc)) :: Ev.led false :: doneBurst)
            + s.sampleCount = maxSamples
        omega

/-- A starting iteration (idle before, recording after) raises the LED, bursts
the start marker, waits the guard delay, and emits at most the first sample;
its payload count equals the new sample count. -/
theorem startStep_session (s : UnoState) (i : LoopInput)
    (hidle : s.recording = false) (hstart : (loopRobust s i).1.recording = true) :
    (loopRobust s i).1.sampleCount < maxSamples ∧
    payloadCount (loopRobust s i).2 = (loopRobust s i).1.sampleCount ∧
    ∃ tail : List Ev,
      (loopRobust s i).2 = Ev.led true :: strtBurst ++ Ev.delayMs 20 :: tail ∧
      ∀ e ∈ tail, isSampleEv e = true := by
  rcases hs : (stablePressedB (debounceStep s i) i && !(debounceStep s i).recording)
    with _ | _
  · exfalso
    rw [loopRobust_eq, startStep_skips _ _ hs,
      sampleStep_of_idle _ _ (by simpa using hidle)] at hstart
    simp [hidle] at hstart
  · have hfire := startStep_fires _ i hs
    rcases Nat.lt_or_ge (usub32 i.nowUs s.lastSampleTime) sampleInterval with hd | hd
    · have hstep : loopRobust s i =
          ({ debounceStep s i with recording := true, sampleCount := 0 },
            Ev.led true :: strtBurst ++ [Ev.delayMs 20]) := by
        rw [loopRobust_eq, hfire, sampleStep_not_due _ _ (by simpa using hd)]
        simp
      rw [hstep]
      refine ⟨by simp; decide, ?_, [], by simp, by simp⟩
      show payloadCount (Ev.led true :: strtBurst ++ [Ev.delayMs 20]) = 0
      decide
    · have hstep : loopRobust s i =
          ({ debounceStep s i with
              recording := true
              lastSampleTime := i.nowUs % U32
              sampleCount := 1 },
            (Ev.led true :: strtBurst ++ [Ev.delayMs 20]) ++
              [Ev.ser (int16LEBytes (pcm10 i.adc))]) := by
        rw [loopRobust_eq, hfire,
          sampleStep_due_mid _ _ (by simp) (by simpa using hd) (by simp; decide)]
      rw [hstep]
      refine ⟨by simp; decide, ?_, [Ev.ser (int16LEBytes (pcm10 i.adc))], by simp, ?_⟩
      · show payloadCount ((Ev.led true :: strtBurst ++ [Ev.delayMs 20]) ++
          [Ev.ser (int16LEBytes (pcm10 i.adc))]) = 1
        rw [payloadCount_append]
        have h0 : payloadCount (Ev.led true :: strtBurst ++ [Ev.delayMs 20]) = 0 := by
          decide
        have h1 : payloadCount [Ev.ser (int16LEBytes (pcm10 i.adc))] = 1 := by
          simp [payloadCount, List.filter_cons, isSampleEv]
        omega
      · intro e he
        simp at he
        rw [he]
        exact isSampleEv_pcm _

/-! ## Steady sampling runs: a session driven to completion -/

/-- A mid-session robust-Uno state with sample count `c`, sampling clock `ls`,
and steady debounce bookkeeping. -/
def mkRec (c ls : Nat) (b : Bool) (m : Nat) : UnoState :=
  { recording := true, sampleCount := c, lastSampleTime := ls,
    lastButtonPressed := b, lastButtonChangeMs := m }

/-- An iteration input with a fixed button level, fixed `millis()` reading and
ADC value, and `micros()` at the `j`-th sample interval. -/
def steadyInput (b : Bool) (t a j : Nat) : LoopInput :=
  { buttonLow := b, nowMs := t, nowUs := sampleInterval * j, adc := a }

/-- `n` consecutive steady inputs starting at interval index `k`. -/
def steadyFrom (b : Bool) (t a : Nat) : Nat → Nat → List LoopInput
  | _, 0 => []
  | k, n + 1 => steadyInput b t a k :: steadyFrom b t a (k + 1) n

/-- Wraparound-safe subtraction recovers a small increment. -/
theorem usub32_add (b d : Nat) (hd : d < U32) : usub32 (b + d) b = d := by
  unfold usub32 U32 at *
  omega

/-- One steady iteration of a mid-session state: the sample is due, the count
advances, and the session ends exactly on reaching `maxSamples`. -/
theorem loopRobust_steady_step (c k : Nat) (b : Bool) (m t a : Nat) :
    loopRobust (mkRec c ((sampleInterval * k) % U32) b m) (steadyInput b t a (k + 1))
      = (if c + 1 < maxSamples then
           (mkRec (c + 1) ((sampleInterval * (k + 1)) % U32) b m,
             [Ev.ser (int16LEBytes (pcm10 a))])
         else
           ({ recording := false
              sampleCount := c + 1
              lastSampleTime := (sampleInterval * (k + 1)) % U32
              lastButtonPressed := b
              lastButtonChangeMs := m },
             Ev.ser (int16LEBytes (pcm10 a)) :: Ev.led false :: doneBurst)) := by
  have hdeb : debounceStep (mkRec c ((sampleInterval * k) % U32) b m)
      (steadyInput b t a (k + 1)) = mkRec c ((sampleInterval * k) % U32) b m :=
    debounceStep_same _ _ rfl
  have hdue : sampleInterval ≤ usub32 (steadyInput b t a (k + 1)).nowUs
      (mkRec c ((sampleInterval * k) % U32) b m).lastSampleTime := by
    show sampleInterval ≤ usub32 (sampleInterval * (k + 1)) ((sampleInterval * k) % U32)
    rw [usub32_mod_right, Nat.mul_succ, usub32_add _ _ (by decide)]
  rw [loopRobust_of_recording _ _ rfl, hdeb]
  rcases Nat.lt_or_ge (c + 1) maxSamples with hc | hc
  · rw [if_pos hc, sampleStep_due_mid _ _ rfl hdue (by simpa [mkRec] using hc)]
    simp [mkRec, steadyInput, Nat.mul_succ]
  · rw [if_neg (by omega), sampleStep_due_stop _ _ rfl hdue (by simpa [mkRec] using hc)]
    simp [mkRec, steadyInput, Nat.mul_succ]

/-- Driving a mid-session state with exactly the remaining number of steady
inputs reaches the session's end. -/
theorem runUntilStop_steady (n : Nat) : ∀ (c k : Nat) (b : Bool) (m t a : Nat),
    c < maxSamples → c + n = maxSamples →
    (runUntilStop (mkRec c ((sampleInterval * k) % U32) b m)
        (steadyFrom b t a (k + 1) n)).2 = true := by
  induction n with
  | zero =>
    intro c k b m t a hc hn
    exact absurd hn (by omega)
  | succ n ih =>
    intro c k b m t a hc hn
    have hunf : steadyFrom b t a (k + 1) (n + 1)
        = steadyInput b t a (k + 1) :: steadyFrom b t a (k + 2) n := rfl
    rw [hunf]
    simp only [runUntilStop, loopRobust_steady_step]
    rcases Nat.lt_or_ge (c + 1) maxSamples with hcc | hcc
    · rw [if_pos hcc]
      rw [if_pos (by simp [mkRec])]
      exact ih (c + 1) (k + 1) b m t a hcc (by omega)
    · rw [if_neg (show ¬(c + 1 < maxSamples) by omega)]
      rw [if_neg (by simp)]

/-- Idle state with the button already held 100 ms, ready to start. -/
def c3StartState : UnoState :=
  { recording := false, sampleCount := 0, lastSampleTime := 0,
    lastButtonPressed := true, lastButtonChangeMs := 0 }

/-- The iteration that starts the session and takes the first sample. -/
def c3StartInput : LoopInput :=
  { buttonLow := true, nowMs := 100, nowUs := 125, adc := 512 }

/-- 119999 further steady iterations completing the session. -/
def c3Rest : List LoopInput := steadyFrom true 100 512 2 119999

/-! ## C9: one physical press versus session starts -/

/-- The final state of a steady mid-session run. -/
theorem runRobust_steady (n : Nat) : ∀ (c k : Nat) (b : Bool) (m t a : Nat),
    c < maxSamples → c + n ≤ maxSamples →
    (runRobust (mkRec c ((sampleInterval * k) % U32) b m)
        (steadyFrom b t a (k + 1) n)).1
      = (if c + n < maxSamples then
          mkRec (c + n) ((sampleInterval * (k + n)) % U32) b m
         else
          { recording := false
            sampleCount := c + n
            lastSampleTime := (sampleInterval * (k + n)) % U32
            lastButtonPressed := b
            lastButtonChangeMs := m }) := by
  induction n with
  | zero =>
    intro c k b m t a hc hn
    rw [if_pos (by omega)]
    rfl
  | succ n ih =>
    intro c k b m t a hc hn
    have hunf : steadyFrom b t a (k + 1) (n + 1)
        = steadyInput b t a (k + 1) :: steadyFrom b t a (k + 1 + 1) n := rfl
    rw [hunf]
    simp only [runRobust, loopRobust_steady_step]
    rcases Nat.lt_or_ge (c + 1) maxSamples with hcc | hcc
    · rw [if_pos hcc]
      have h2 := ih (c + 1) (k + 1) b m t a hcc (by omega)
      rw [h2]
      have e1 : c + 1 + n = c + (n + 1) := by omega
      have e2 : k + 1 + n = k + (n + 1) := by omega
      rw [e1, e2]
    · have hn0 : n = 0 := by omega
      subst hn0
      rw [if_neg (show ¬(c + 1 < maxSamples) by omega)]
      rw [if_neg (show ¬(c + (0 + 1) < maxSamples) by omega)]
      rfl

/-- No session start occurs during a steady mid-session run. -/
theorem countStarts_steady (n : Nat) : ∀ (c k : Nat) (b : Bool) (m t a : Nat),
    c < maxSamples → c + n ≤ maxSamples →
    countStarts (mkRec c ((sampleInterval * k) % U32) b m)
      (steadyFrom b t a (k + 1) n) = 0 := by
  induction n with
  | zero => intro c k b m t a hc hn; rfl
  | succ n ih =>
    intro c k b m t a hc hn
    have hunf : steadyFrom b t a (k + 1) (n + 1)
        = steadyInput b t a (k + 1) :: steadyFrom b t a (k + 1 + 1) n := rfl
    rw [hunf]
    simp only [countStarts, loopRobust_steady_step]
    rcases Nat.lt_or_ge (c + 1) maxSamples with hcc | hcc
    · rw [if_pos hcc]
      have h2 := ih (c + 1) (k + 1) b m t a hcc (by omega)
      simpa [mkRec] using h2
    · have hn0 : n = 0 := by omega
      subst hn0
      rw [if_neg (show ¬(c + 1 < maxSamples) by omega)]
      simp [mkRec, countStarts]

/-- `countStarts` is additive over concatenated input segments. -/
theorem countStarts_append (xs ys : List LoopInput) : ∀ s : UnoState,
    countStarts s (xs ++ ys)
      = countStarts s xs + countStarts (runRobust s xs).1 ys := by
  induction xs with
  | nil => intro s; simp [countStarts, runRobust]
  | cons i rest ih =>
    intro s
    simp only [List.cons_append, countStarts, runRobust, List.append_eq]
    rw [ih]
    omega

/-- All steady inputs carry the held button level. -/
theorem steadyFrom_all_pressed (t a : Nat) : ∀ n k : Nat,
    ((steadyFrom true t a k n).all fun i => i.buttonLow) = true := by
  intro n
  induction n with
  | zero => intro k; rfl
  | succ n ih =>
    intro k
    simp only [steadyFrom, List.all_cons, ih]
    rfl

/-- First iteration of the counterexample press: the level change is recorded. -/
def c9Press : LoopInput := { buttonLow := true, nowMs := 0, nowUs := 0, adc := 512 }

/-- Iteration 40 ms later: the press is now debounced and starts session one. -/
def c9Start : LoopInput := { buttonLow := true, nowMs := 100, nowUs := 125, adc := 512 }

/-- 119999 steady held iterations (interval indices from 1 + 1 on) finishing
session one. -/
def c9Hold : List LoopInput := steadyFrom true 100 512 (1 + 1) 119999

/-- One more held iteration after the session's natural end. -/
def c9After : LoopInput := { buttonLow := true, nowMs := 200, nowUs := 0, adc := 512 }

/-- The full counterexample trace: the button reads LOW at every iteration. -/
def c9Trace : List LoopInput := ([c9Press, c9Start] ++ c9Hold) ++ [c9After]

/-- Splitting a robust-Uno run at a segment boundary, final state only. -/
theorem runRobust_fst_append (xs ys : List LoopInput) : ∀ s : UnoState,
    (runRobust s (xs ++ ys)).1 = (runRobust (runRobust s xs).1 ys).1 := by
  induction xs with
  | nil => intro s; simp [runRobust]
  | cons i rest ih =>
    intro s
    simp only [List.cons_append, runRobust, List.append_eq]
    exact ih (loopRobust s i).1

/-- Counterexample to C9: one continuous press — every iteration of the trace
reads the button LOW — starts two recording sessions: the session it
triggers runs to completion, after which the still-held button immediately
starts a second one. -/
theorem c9_counterexample_two_sessions :
    (c9Trace.all fun i => i.buttonLow) = true ∧
    countStarts initUno c9Trace = 2 := by
  constructor
  · show ((([c9Press, c9Start] ++ c9Hold) ++ [c9After]).all fun i => i.buttonLow) = true
    simp only [List.all_append]
    have h1 := steadyFrom_all_pressed 100 512 119999 (1 + 1)
    simp only [c9Hold, h1]
    decide
  · show countStarts initUno (([c9Press, c9Start] ++ c9Hold) ++ [c9After]) = 2
    rw [countStarts_append, countStarts_append, runRobust_fst_append]
    have h2 : (runRobust initUno [c9Press, c9Start]).1
        = mkRec 1 ((sampleInterval * 1) % U32) true 0 := by decide
    have h3 := countStarts_steady 119999 1 1 true 0 100 512 (by decide) (by decide)
    have h4 := runRobust_steady 119999 1 1 true 0 100 512 (by decide) (by decide)
    rw [if_neg (by decide)] at h4
    rw [h2]
    rw [show c9Hold = steadyFrom true 100 512 (1 + 1) 119999 from rfl]
    rw [h3, h4]
    have h5 : countStarts initUno [c9Press, c9Start] = 1 := by decide
    rw [h5]
    decide

/-- C9 (amended): while a session is in progress, a continuously held press is
ignored — it starts no new session and does not abort the one running, which
completes with exactly the remaining number of samples; only after the
session's natural end can the still-held press start another session. -/
theorem c9_amended_held_press (c k m t a n : Nat)
    (hc : c < maxSamples) (hn : c + n = maxSamples) :
    countStarts (mkRec c ((sampleInterval * k) % U32) true m)
      (steadyFrom true t a (k + 1) n) = 0 ∧
    (runUntilStop (mkRec c ((sampleInterval * k) % U32) true m)
        (steadyFrom true t a (k + 1) n)).2 = true ∧
    payloadCount (runUntilStop (mkRec c ((sampleInterval * k) % U32) true m)
        (steadyFrom true t a (k + 1) n)).1 = maxSamples - c := by
  have h1 := countStarts_steady n c k true m t a hc (by omega)
  have h2 := runUntilStop_steady n c k true m t a hc hn
  have h3 := runUntilStop_spec (steadyFrom true t a (k + 1) n)
      (mkRec c ((sampleInterval * k) % U32) true m) rfl (by simpa [mkRec] using hc) h2
  refine ⟨h1, h2, ?_⟩
  rw [show (mkRec c ((sampleInterval * k) % U32) true m).sampleCount = c from rfl] at h3
  omega

/-- Witness for the amended C9 at the last sample of a session. -/
theorem c9_amended_held_press_witness :
    countStarts (mkRec 119999 ((sampleInterval * 0) % U32) true 0)
      (steadyFrom true 0 0 (0 + 1) 1) = 0 ∧
    (runUntilStop (mkRec 119999 ((sampleInterval * 0) % U32) true 0)
        (steadyFrom true 0 0 (0 + 1) 1)).2 = true ∧
    payloadCount (runUntilStop (mkRec 119999 ((sampleInterval * 0) % U32) true 0)
        (steadyFrom true 0 0 (0 + 1) 1)).1 = maxSamples - 119999 :=
  c9_amended_held_press 119999 0 0 0 0 1 (by decide) (by decide)

/-! ## C8: a bounce train never debounces to a stable press -/

/-- `usub32` of equal readings is zero. -/
theorem usub32_self (a : Nat) : usub32 a a = 0 := by
  unfold usub32 U32
  omega

/-- `usub32` reduces to ordinary subtraction below the wraparound bound. -/
theorem usub32_sub (a b : Nat) (h1 : b ≤ a) (h2 : a - b < U32) :
    usub32 a b = a - b := by
  unfold usub32 U32 at *
  omega

/-- The raw level of a 5 ms-period bounce train read at millisecond `j`. -/
def bLevel (j : Nat) : Bool := decide ((j / 5) % 2 = 0)

/-- `n` one-millisecond-apart reads of the bounce train, from millisecond `j`:
the raw level toggles every 5 ms, faster than the 40 ms debounce window. -/
def bounceFrom : Nat → Nat → List LoopInput
  | _, 0 => []
  | j, n + 1 =>
    { buttonLow := bLevel j, nowMs := j, nowUs := 0, adc := 0 } ::
      bounceFrom (j + 1) n

/-- The bounce-train reads from power-on. -/
def bounceInputs (n : Nat) : List LoopInput := bounceFrom 0 n

/-- The `stablePressed` value computed by one iteration. -/
def stablePressedAt (s : UnoState) (i : LoopInput) : Bool :=
  stablePressedB (debounceStep s i) i

/-- Whether any iteration of a run computes `stablePressed = true`. -/
def anyStable (s : UnoState) : List LoopInput → Bool
  | [] => false
  | i :: rest => stablePressedAt s i || anyStable (loopRobust s i).1 rest

/-- The bounce level is unchanged within a 5 ms half-period and flips at its
end. -/
theorem bLevel_succ (j : Nat) :
    ((j + 1) % 5 = 0 → bLevel (j + 1) = !bLevel j) ∧
    ((j + 1) % 5 ≠ 0 → bLevel (j + 1) = bLevel j) := by
  constructor
  · intro h5
    have hq : (j + 1) / 5 = j / 5 + 1 := by omega
    unfold bLevel
    rw [hq]
    rcases Nat.mod_two_eq_zero_or_one (j / 5) with hp | hp
    · have : (j / 5 + 1) % 2 = 1 := by omega
      simp [this, hp]
    · have : (j / 5 + 1) % 2 = 0 := by omega
      simp [this, hp]
  · intro h5
    have hq : (j + 1) / 5 = j / 5 := by omega
    unfold bLevel
    rw [hq]

/-- One bounce-train iteration from the idle invariant state: the signal is
never considered stably pressed, and only the debounce bookkeeping moves. -/
theorem loopRobust_bounce_step (j c ls : Nat) :
    loopRobust (⟨false, c, ls, bLevel j, (5 * (j / 5)) % U32⟩ : UnoState)
        { buttonLow := bLevel (j + 1), nowMs := j + 1, nowUs := 0, adc := 0 }
      = ((⟨false, c, ls, bLevel (j + 1), (5 * ((j + 1) / 5)) % U32⟩ : UnoState), []) ∧
    stablePressedAt (⟨false, c, ls, bLevel j, (5 * (j / 5)) % U32⟩ : UnoState)
        { buttonLow := bLevel (j + 1), nowMs := j + 1, nowUs := 0, adc := 0 }
      = false := by
  by_cases h5 : (j + 1) % 5 = 0
  · -- the level flips: the change timestamp is refreshed to now
    have hflip : bLevel (j + 1) = !bLevel j := (bLevel_succ j).1 h5
    have hne : (bLevel (j + 1) != bLevel j) = true := by
      rw [hflip]; rcases bLevel j <;> rfl
    have hdeb : debounceStep (⟨false, c, ls, bLevel j, (5 * (j / 5)) % U32⟩ : UnoState)
        { buttonLow := bLevel (j + 1), nowMs := j + 1, nowUs := 0, adc := 0 }
        = (⟨false, c, ls, bLevel (j + 1), (j + 1) % U32⟩ : UnoState) := by
      unfold debounceStep
      rw [if_pos hne]
    have hstable : stablePressedB
        (⟨false, c, ls, bLevel (j + 1), (j + 1) % U32⟩ : UnoState)
        { buttonLow := bLevel (j + 1), nowMs := j + 1, nowUs := 0, adc := 0 } = false := by
      unfold stablePressedB
      rw [usub32_mod_right, usub32_self]
      simp [debounceMs]
    have hm : (j + 1) % U32 = (5 * ((j + 1) / 5)) % U32 := by
      have : 5 * ((j + 1) / 5) = j + 1 := by omega
      rw [this]
    constructor
    · rw [loopRobust_eq, hdeb, startStep_skips _ _ (by rw [hstable]; rfl),
        sampleStep_of_idle _ _ rfl]
      rw [hm]
      rfl
    · unfold stablePressedAt
      rw [hdeb, hstable]
  · -- the level is steady: at most 5 ms since the last change, below 40 ms
    have hsame : bLevel (j + 1) = bLevel j := (bLevel_succ j).2 h5
    have hne : (bLevel (j + 1) != bLevel j) = false := by
      rw [hsame]; rcases bLevel j <;> rfl
    have hdeb : debounceStep (⟨false, c, ls, bLevel j, (5 * (j / 5)) % U32⟩ : UnoState)
        { buttonLow := bLevel (j + 1), nowMs := j + 1, nowUs := 0, adc := 0 }
        = (⟨false, c, ls, bLevel j, (5 * (j / 5)) % U32⟩ : UnoState) := by
      unfold debounceStep
      rw [hne]
      simp
    have hsmall : usub32 (j + 1) ((5 * (j / 5)) % U32) ≤ 5 := by
      rw [usub32_mod_right, usub32_sub _ _ (by omega) (by unfold U32; omega)]
      omega
    have hstable : stablePressedB
        (⟨false, c, ls, bLevel j, (5 * (j / 5)) % U32⟩ : UnoState)
        { buttonLow := bLevel (j + 1), nowMs := j + 1, nowUs := 0, adc := 0 } = false := by
      unfold stablePressedB
      have : decide (debounceMs <
          usub32 (j + 1) ((5 * (j / 5)) % U32)) = false := by
        rw [decide_eq_false_iff_not]
        unfold debounceMs
        omega
      rw [this]
      simp
    have hmq : (5 * (j / 5)) % U32 = (5 * ((j + 1) / 5)) % U32 := by
      have : (j + 1) / 5 = j / 5 := by omega
      rw [this]
    constructor
    · rw [loopRobust_eq, hdeb, startStep_skips _ _ (by rw [hstable]; rfl),
        sampleStep_of_idle _ _ rfl]
      rw [show (⟨false, c, ls, bLevel j, (5 * (j / 5)) % U32⟩ : UnoState)
          = (⟨false, c, ls, bLevel (j + 1), (5 * ((j + 1) / 5)) % U32⟩ : UnoState) by
        rw [hsame, hmq]]
      rfl
    · unfold stablePressedAt
      rw [hdeb, hstable]

/-- Unfolding one iteration of `anyStable`. -/
theorem anyStable_cons (s : UnoState) (i : LoopInput) (rest : List LoopInput) :
    anyStable s (i :: rest)
      = (stablePressedAt s i || anyStable (loopRobust s i).1 rest) := rfl

/-- Unfolding one iteration of `runRobust`. -/
theorem runRobust_cons (s : UnoState) (i : LoopInput) (rest : List LoopInput) :
    runRobust s (i :: rest)
      = ((runRobust (loopRobust s i).1 rest).1,
          (loopRobust s i).2 ++ (runRobust (loopRobust s i).1 rest).2) := rfl

/-- Along any bounce-train segment from the idle invariant state, no iteration
ever computes a stable press, and the run stays idle with no output. -/
theorem bounce_run (n : Nat) : ∀ (j c ls : Nat),
    anyStable (⟨false, c, ls, bLevel j, (5 * (j / 5)) % U32⟩ : UnoState)
      (bounceFrom (j + 1) n) = false ∧
    runRobust (⟨false, c, ls, bLevel j, (5 * (j / 5)) % U32⟩ : UnoState)
        (bounceFrom (j + 1) n)
      = ((⟨false, c, ls, bLevel (j + n), (5 * ((j + n) / 5)) % U32⟩ : UnoState), []) := by
  induction n with
  | zero =>
    intro j c ls
    exact ⟨rfl, rfl⟩
  | succ n ih =>
    intro j c ls
    have hunf : bounceFrom (j + 1) (n + 1)
        = { buttonLow := bLevel (j + 1), nowMs := j + 1, nowUs := 0, adc := 0 } ::
            bounceFrom (j + 1 + 1) n := rfl
    rcases loopRobust_bounce_step j c ls with ⟨hstep, hstable⟩
    have hstep1 : (loopRobust (⟨false, c, ls, bLevel j, (5 * (j / 5)) % U32⟩ : UnoState)
        { buttonLow := bLevel (j + 1), nowMs := j + 1, nowUs := 0, adc := 0 }).1
        = (⟨false, c, ls, bLevel (j + 1), (5 * ((j + 1) / 5)) % U32⟩ : UnoState) := by
      rw [hstep]
    have hstep2 : (loopRobust (⟨false, c, ls, bLevel j, (5 * (j / 5)) % U32⟩ : UnoState)
        { buttonLow := bLevel (j + 1), nowMs := j + 1, nowUs := 0, adc := 0 }).2 = [] := by
      rw [hstep]
    rcases ih (j + 1) c ls with ⟨ihs, ihr⟩
    have e1 : j + 1 + n = j + (n + 1) := by omega
    rw [e1] at ihr
    constructor
    · rw [hunf, anyStable_cons, hstable, hstep1, Bool.false_or]
      exact ihs
    · rw [hunf, runRobust_cons, hstep1, hstep2, ihr]
      rfl

/-- C8: reading a 5 ms-period bounce train every millisecond from power-on,
the 40 ms edge debounce never reports a stable press, the sketch never
starts recording, and no output at all is emitted. -/
theorem c8_bounce_never_triggers (n : Nat) :
    anyStable initUno (bounceInputs n) = false ∧
    (runRobust initUno (bounceInputs n)).1.recording = false ∧
    (runRobust initUno (bounceInputs n)).2 = [] := by
  rcases n with _ | m
  · exact ⟨rfl, rfl, rfl⟩
  · have h01 : (loopRobust initUno
        { buttonLow := bLevel 0, nowMs := 0, nowUs := 0, adc := 0 }).1
        = (⟨false, 0, 0, bLevel 0, (5 * (0 / 5)) % U32⟩ : UnoState) := by decide
    have h02 : (loopRobust initUno
        { buttonLow := bLevel 0, nowMs := 0, nowUs := 0, adc := 0 }).2 = [] := by decide
    have hs0 : stablePressedAt initUno
        { buttonLow := bLevel 0, nowMs := 0, nowUs := 0, adc := 0 } = false := by decide
    have hunf : bounceInputs (m + 1)
        = { buttonLow := bLevel 0, nowMs := 0, nowUs := 0, adc := 0 } ::
            bounceFrom (0 + 1) m := rfl
    rcases bounce_run m 0 0 0 with ⟨ihs, ihr⟩
    refine ⟨?_, ?_, ?_⟩
    · rw [hunf, anyStable_cons, hs0, h01, Bool.false_or]
      exact ihs
    · rw [hunf, runRobust_cons, h01, ihr]
    · rw [hunf, runRobust_cons, h01, h02, ihr]
      rfl

/-! ## C10: ESP32 LED blink -/

/-- While a session is in progress, an ESP32 iteration is exactly the sampling
branch. -/
theorem loopEsp_of_recording (s : EspState) (i : LoopInput)
    (h : s.recording = true) :
    loopEsp s i = sampleStepEsp s i := by
  simp only [loopEsp, startStepEsp_of_recording s i h, List.nil_append]

/-- C10: while recording, each accepted ESP32 sample toggles the LED exactly
when the new sample count is a multiple of `sampleRate` (once per second of
audio), leaves the LED untouched otherwise, and at the session's end the
final LED write drives it LOW. -/
theorem c10_led_blink (s : EspState) (i : LoopInput)
    (hrec : s.recording = true)
    (hdue : sampleIntervalEsp ≤ usub32 i.nowUs s.lastSampleTime) :
    ((s.sampleCount + 1) % sampleRateEsp = 0 →
      Ev.led (!s.led) ∈ (loopEsp s i).2) ∧
    ((s.sampleCount + 1) % sampleRateEsp ≠ 0 → s.sampleCount + 1 < maxSamplesEsp →
      (loopEsp s i).2 = [Ev.ser (int16LEBytes (pcm12 i.adc))] ∧
      (loopEsp s i).1.led = s.led) ∧
    (maxSamplesEsp ≤ s.sampleCount + 1 →
      (loopEsp s i).1.led = false ∧
      (loopEsp s i).2.getLast? = some (Ev.led false)) := by
  rw [loopEsp_of_recording s i hrec]
  rcases Nat.lt_or_ge (s.sampleCount + 1) maxSamplesEsp with hc | hc
  · rw [sampleStepEsp_due_mid _ _ hrec hdue hc]
    refine ⟨?_, ?_, ?_⟩
    · intro hmul
      simp [hmul]
    · intro hmul _
      simp [hmul]
    · intro hstop
      omega
  · rw [sampleStepEsp_due_stop _ _ hrec hdue hc]
    refine ⟨?_, ?_, ?_⟩
    · intro hmul
      simp [hmul]
    · intro _ hlt
      omega
    · intro _
      refine ⟨rfl, ?_⟩
      split <;> simp

/-- Witness for C10: the 16000th sample toggles the LED, and the 240000th
drives it LOW after the `STOP` line. -/
theorem c10_led_blink_witness :
    Ev.led false ∈
      (loopEsp (⟨true, 15999, 0, true⟩ : EspState)
        { buttonLow := false, nowMs := 0, nowUs := 62, adc := 0 }).2 ∧
    ((loopEsp (⟨true, 239999, 0, false⟩ : EspState)
        { buttonLow := false, nowMs := 0, nowUs := 62, adc := 0 }).1.led = false ∧
      (loopEsp (⟨true, 239999, 0, false⟩ : EspState)
        { buttonLow := false, nowMs := 0, nowUs := 62, adc := 0 }).2.getLast?
        = some (Ev.led false)) :=
  ⟨(c10_led_blink _ _ rfl (by decide)).1 (by decide),
   (c10_led_blink _ _ rfl (by decide)).2.2 (by decide)⟩

/-! ## C6: sentinel framing of a session's payload -/

/-- An event is an LED write. -/
def isLedEv : Ev → Bool
  | Ev.led _ => true
  | _ => false

/-- From a mid-session state to the session's end, the robust Uno variant
emits only payload samples followed by the LED-low write and the `DONE`
burst. -/
theorem runUntilStop_events (inputs : List LoopInput) : ∀ s : UnoState,
    s.recording = true → s.sampleCount < maxSamples →
    (runUntilStop s inputs).2 = true →
    ∃ mid : List Ev,
      (runUntilStop s inputs).1 = mid ++ (Ev.led false :: doneBurst) ∧
      ∀ e ∈ mid, isSampleEv e = true := by
  induction inputs with
  | nil => intro s _ _ hdone; simp [runUntilStop] at hdone
  | cons i rest ih =>
    intro s hrec hcount hdone
    rcases Nat.lt_or_ge (usub32 i.nowUs s.lastSampleTime) sampleInterval with hd | hd
    · have hstep : loopRobust s i = (debounceStep s i, []) := by
        rw [loopRobust_of_recording s i hrec, sampleStep_not_due _ _ (by simpa using hd)]
      simp only [runUntilStop, hstep] at hdone ⊢
      rw [if_pos (by simp [hrec])] at hdone ⊢
      rcases ih (debounceStep s i) (by simp [hrec]) (by simpa using hcount) hdone
        with ⟨mid, hm, hall⟩
      exact ⟨mid, by simpa using hm, hall⟩
    · rcases Nat.lt_or_ge (s.sampleCount + 1) maxSamples with hc | hc
      · have hstep : loopRobust s i =
            ({ debounceStep s i with
                lastSampleTime := i.nowUs % U32
                sampleCount := (debounceStep s i).sampleCount + 1 },
              [Ev.ser (int16LEBytes (pcm10 i.adc))]) := by
          rw [loopRobust_of_recording s i hrec,
            sampleStep_due_mid _ _ (by simpa using hrec) (by simpa using hd)
              (by simpa using hc)]
        simp only [runUntilStop, hstep] at hdone ⊢
        rw [if_pos (by simp [hrec])] at hdone ⊢
        rcases ih _ (by simp [hrec]) (by simpa using hc) hdone with ⟨mid, hm, hall⟩
        refine ⟨Ev.ser (int16LEBytes (pcm10 i.adc)) :: mid, ?_, ?_⟩
        · simp only [List.cons_append, List.singleton_append]
          rw [hm]
          simp
        · intro e he
          rcases List.mem_cons.mp he with he1 | he2
          · rw [he1]; exact isSampleEv_pcm _
          · exact hall e he2
      · have hstep : loopRobust s i =
            ({ debounceStep s i with
                recording := false
                lastSampleTime := i.nowUs % U32
                sampleCount := (debounceStep s i).sampleCount + 1 },
              Ev.ser (int16LEBytes (pcm10 i.adc)) :: Ev.led false :: doneBurst) := by
          rw [loopRobust_of_recording s i hrec,
            sampleStep_due_stop _ _ (by simpa using hrec) (by simpa using hd)
              (by simpa using hc)]
        simp only [runUntilStop, hstep]
        rw [if_neg (by simp)]
        refine ⟨[Ev.ser (int16LEBytes (pcm10 i.adc))], rfl, ?_⟩
        intro e he
        rcases List.mem_singleton.mp he with he1
        rw [he1]; exact isSampleEv_pcm _

/-- The ESP32 start branch when it fires. -/
theorem startStepEsp_fires (s : EspState) (i : LoopInput)
    (h : (i.buttonLow && !s.recording) = true) :
    startStepEsp s i =
      ({ s with recording := true, sampleCount := 0, led := true },
        [Ev.line "START", Ev.led true, Ev.delayMs 200]) := by
  unfold startStepEsp; rw [if_pos h]

/-- The ESP32 start branch when it does not fire. -/
theorem startStepEsp_skips (s : EspState) (i : LoopInput)
    (h : (i.buttonLow && !s.recording) = false) :
    startStepEsp s i = (s, []) := by
  unfold startStepEsp; rw [h]; simp

/-- A starting ESP32 iteration emits the `START` line, the LED-high write and
the guard delay before anything else, followed by at most the first sample. -/
theorem startStepEsp_session (s : EspState) (i : LoopInput)
    (hidle : s.recording = false) (hstart : (loopEsp s i).1.recording = true) :
    (loopEsp s i).1.sampleCount < maxSamplesEsp ∧
    ∃ tail : List Ev,
      (loopEsp s i).2 = Ev.line "START" :: Ev.led true :: Ev.delayMs 200 :: tail ∧
      ∀ e ∈ tail, (isSampleEv e || isLedEv e) = true := by
  rcases hs : (i.buttonLow && !s.recording) with _ | _
  · exfalso
    rw [loopEsp_eq, startStepEsp_skips _ _ hs,
      sampleStepEsp_of_idle _ _ (by simpa using hidle)] at hstart
    simp [hidle] at hstart
  · have hfire := startStepEsp_fires s i hs
    rcases Nat.lt_or_ge (usub32 i.nowUs s.lastSampleTime) sampleIntervalEsp with hd | hd
    · have hstep : loopEsp s i =
          ({ s with recording := true, sampleCount := 0, led := true },
            [Ev.line "START", Ev.led true, Ev.delayMs 200]) := by
        rw [loopEsp_eq, hfire, sampleStepEsp_not_due _ _ (by simpa using hd)]
        rfl
      rw [hstep]
      exact ⟨(by decide : (0 : Nat) < maxSamplesEsp), [], rfl, by simp⟩
    · have hstep : loopEsp s i =
          (({ recording := true
              sampleCount := 1
              lastSampleTime := i.nowUs % U32
              led := true } : EspState),
            [Ev.line "START", Ev.led true, Ev.delayMs 200,
              Ev.ser (int16LEBytes (pcm12 i.adc))]) := by
        rw [loopEsp_eq, hfire,
          sampleStepEsp_due_mid _ _ rfl (by simpa using hd)
            (by simpa using (by decide : (0 : Nat) + 1 < maxSamplesEsp))]
        simp [show ¬(((0 : Nat) + 1) % sampleRateEsp = 0) by decide]
      rw [hstep]
      refine ⟨(by decide : (1 : Nat) < maxSamplesEsp),
        [Ev.ser (int16LEBytes (pcm12 i.adc))], rfl, ?_⟩
      intro e he
      rcases List.mem_singleton.mp he with he1
      rw [he1]
      simp [isSampleEv_pcm]

/-- From a mid-session state to the session's end, the ESP32 variant emits
only payload samples and LED blink toggles, followed by the `STOP` line and
the LED-low write. -/
theorem runUntilStopEsp_events (inputs : List LoopInput) : ∀ s : EspState,
    s.recording = true → s.sampleCount < maxSamplesEsp →
    (runUntilStopEsp s inputs).2 = true →
    ∃ mid : List Ev,
      (runUntilStopEsp s inputs).1 = mid ++ [Ev.line "STOP", Ev.led false] ∧
      ∀ e ∈ mid, (isSampleEv e || isLedEv e) = true := by
  induction inputs with
  | nil => intro s _ _ hdone; simp [runUntilStopEsp] at hdone
  | cons i rest ih =>
    intro s hrec hcount hdone
    have hloop : loopEsp s i = sampleStepEsp s i := loopEsp_of_recording s i hrec
    rcases Nat.lt_or_ge (usub32 i.nowUs s.lastSampleTime) sampleIntervalEsp with hd | hd
    · have hstepL : loopEsp s i = (s, []) :=
        hloop.trans (sampleStepEsp_not_due _ _ hd)
      simp only [runUntilStopEsp, hstepL] at hdone ⊢
      rw [if_pos hrec] at hdone ⊢
      rcases ih s hrec hcount hdone with ⟨mid, hm, hall⟩
      exact ⟨mid, by simpa using hm, hall⟩
    · rcases Nat.lt_or_ge (s.sampleCount + 1) maxSamplesEsp with hc | hc
      · have hstepL := hloop.trans (sampleStepEsp_due_mid s i hrec hd hc)
        simp only [runUntilStopEsp, hstepL] at hdone ⊢
        simp only [if_true] at hdone ⊢
        rcases ih _ rfl (by simpa using hc) hdone with ⟨mid, hm, hall⟩
        refine ⟨Ev.ser (int16LEBytes (pcm12 i.adc)) ::
          ((if (s.sampleCount + 1) % sampleRateEsp = 0
            then [Ev.led (!s.led)] else []) ++ mid), ?_, ?_⟩
        · rw [hm]
          simp [List.append_assoc]
        · intro e he
          rcases List.mem_cons.mp he with he1 | he2
          · rw [he1]; simp [isSampleEv_pcm]
          · rcases List.mem_append.mp he2 with he3 | he4
            · rcases Nat.decEq ((s.sampleCount + 1) % sampleRateEsp) 0 with h0 | h0
              · rw [if_neg h0] at he3
                simp at he3
              · rw [if_pos h0] at he3
                rcases List.mem_singleton.mp he3 with he5
                rw [he5]; rfl
            · exact hall e he4
      · have hstepL := hloop.trans (sampleStepEsp_due_stop s i hrec hd hc)
        simp only [runUntilStopEsp, hstepL]
        rw [if_neg (by simp)]
        refine ⟨Ev.ser (int16LEBytes (pcm12 i.adc)) ::
          (if (s.sampleCount + 1) % sampleRateEsp = 0
            then [Ev.led (!s.led)] else []), ?_, ?_⟩
        · simp [List.append_assoc]
        · intro e he
          rcases List.mem_cons.mp he with he1 | he2
          · rw [he1]; simp [isSampleEv_pcm]
          · rcases Nat.decEq ((s.sampleCount + 1) % sampleRateEsp) 0 with h0 | h0
            · rw [if_neg h0] at he2
              simp at he2
            · rw [if_pos h0] at he2
              rcases List.mem_singleton.mp he2 with he5
              rw [he5]; rfl

/-- No event of a simple-Uno iteration is a sentinel: the simple variant
writes only LED levels, delays, and 2-byte PCM samples. -/
theorem loopSimple_no_sentinel (s : SimpleState) (i : LoopInput) :
    ((loopSimple s i).2.all fun e => !isSentinelEv e) = true := by
  show (((startStepSimple s i).2 ++
    (sampleStepSimple (startStepSimple s i).1 i).2).all fun e => !isSentinelEv e) = true
  rw [List.all_append, Bool.and_eq_true]
  constructor
  · unfold startStepSimple
    split
    · rfl
    · rfl
  · unfold sampleStepSimple
    split
    · split
      · dsimp only
        split
        · simp [isSentinelEv]
        · simp [isSentinelEv]
      · rfl
    · rfl

/-- C6 (amended): in the robust Uno variant a completed session's output is
exactly the LED-high write, the `STRT` burst, the guard delay, the payload
samples, the LED-low write and the `DONE` burst, in that order; in the ESP32
variant it is the `START` line, LED-high, guard delay, then only samples and
blink toggles, then the `STOP` line and LED-low; the simple Uno variant
emits no sentinel events at all. -/
theorem c6_amended_sentinel_framing :
    (∀ (s : UnoState) (i : LoopInput) (rest : List LoopInput),
      s.recording = false → (loopRobust s i).1.recording = true →
      (runUntilStop (loopRobust s i).1 rest).2 = true →
      ∃ mid : List Ev,
        (loopRobust s i).2 ++ (runUntilStop (loopRobust s i).1 rest).1
          = (Ev.led true :: strtBurst) ++
              (Ev.delayMs 20 :: (mid ++ (Ev.led false :: doneBurst))) ∧
        ∀ e ∈ mid, isSampleEv e = true) ∧
    (∀ (s : EspState) (i : LoopInput) (rest : List LoopInput),
      s.recording = false → (loopEsp s i).1.recording = true →
      (runUntilStopEsp (loopEsp s i).1 rest).2 = true →
      ∃ mid : List Ev,
        (loopEsp s i).2 ++ (runUntilStopEsp (loopEsp s i).1 rest).1
          = Ev.line "START" ::
              (Ev.led true :: (Ev.delayMs 200 ::
                (mid ++ [Ev.line "STOP", Ev.led false]))) ∧
        ∀ e ∈ mid, (isSampleEv e || isLedEv e) = true) ∧
    (∀ (s : SimpleState) (i : LoopInput),
      ((loopSimple s i).2.all fun e => !isSentinelEv e) = true) := by
  refine ⟨?_, ?_, loopSimple_no_sentinel⟩
  · intro s i rest hidle hstart hdone
    rcases startStep_session s i hidle hstart with ⟨hlt, _, tail, hevs, htail⟩
    rcases runUntilStop_events rest _ hstart hlt hdone with ⟨mid2, hm2, hall2⟩
    refine ⟨tail ++ mid2, ?_, ?_⟩
    · rw [hevs, hm2]
      simp [List.append_assoc]
    · intro e he
      rcases List.mem_append.mp he with h1 | h2
      · exact htail e h1
      · exact hall2 e h2
  · intro s i rest hidle hstart hdone
    rcases startStepEsp_session s i hidle hstart with ⟨hlt, tail, hevs, htail⟩
    rcases runUntilStopEsp_events rest _ hstart hlt hdone with ⟨mid2, hm2, hall2⟩
    refine ⟨tail ++ mid2, ?_, ?_⟩
    · rw [hevs, hm2]
      simp [List.append_assoc]
    · intro e he
      rcases List.mem_append.mp he with h1 | h2
      · exact htail e h1
      · exact hall2 e h2

/-- Counterexample to C6 as stated: in the simple Uno variant a session's
first payload sample is emitted with no sentinel written before it — the
whole output of the starting iteration is the LED write, the blocking delay
and the 2-byte sample, and none of these events is a sentinel. -/
theorem c6_counterexample_simple_no_sentinel :
    (runSimple initSimple
        [{ buttonLow := true, nowMs := 0, nowUs := 125, adc := 512 }]).2
      = [Ev.led true, Ev.delayMs 200, Ev.ser [0, 0]] ∧
    payloadCount (runSimple initSimple
        [{ buttonLow := true, nowMs := 0, nowUs := 125, adc := 512 }]).2 = 1 ∧
    ((runSimple initSimple
        [{ buttonLow := true, nowMs := 0, nowUs := 125, adc := 512 }]).2.all
      fun e => !isSentinelEv e) = true := by
  refine ⟨by decide, by decide, by decide⟩

/-- `n` consecutive steady ESP32 inputs (button released) from interval
index `k`. -/
def steadyEsp (a : Nat) : Nat → Nat → List LoopInput
  | _, 0 => []
  | k, n + 1 =>
    { buttonLow := false, nowMs := 0, nowUs := sampleIntervalEsp * k, adc := a } ::
      steadyEsp a (k + 1) n

/-- Driving a mid-session ESP32 state with exactly the remaining number of
steady inputs reaches the session's end. -/
theorem runUntilStopEsp_steady (n : Nat) : ∀ (c k : Nat) (led : Bool) (a : Nat),
    c < maxSamplesEsp → c + n = maxSamplesEsp →
    (runUntilStopEsp (⟨true, c, (sampleIntervalEsp * k) % U32, led⟩ : EspState)
        (steadyEsp a (k + 1) n)).2 = true := by
  induction n with
  | zero => intro c k led a hc hn; exact absurd hn (by omega)
  | succ n ih =>
    intro c k led a hc hn
    have hdue : sampleIntervalEsp ≤ usub32 (sampleIntervalEsp * (k + 1))
        ((sampleIntervalEsp * k) % U32) := by
      rw [usub32_mod_right, Nat.mul_succ, usub32_add _ _ (by decide)]
    have hunf : steadyEsp a (k + 1) (n + 1)
        = { buttonLow := false, nowMs := 0, nowUs := sampleIntervalEsp * (k + 1),
            adc := a } :: steadyEsp a (k + 1 + 1) n := rfl
    rw [hunf]
    have hloop := loopEsp_of_recording
      (⟨true, c, (sampleIntervalEsp * k) % U32, led⟩ : EspState)
      { buttonLow := false, nowMs := 0, nowUs := sampleIntervalEsp * (k + 1), adc := a }
      rfl
    rcases Nat.lt_or_ge (c + 1) maxSamplesEsp with hcc | hcc
    · have hstepL := hloop.trans
        (sampleStepEsp_due_mid _ _ rfl (by simpa using hdue) (by simpa using hcc))
      simp only [runUntilStopEsp, hstepL]
      simp only [if_true]
      exact ih (c + 1) (k + 1)
        (if (c + 1) % sampleRateEsp = 0 then !led else led) a hcc (by omega)
    · have hstepL := hloop.trans
        (sampleStepEsp_due_stop _ _ rfl (by simpa using hdue) (by simpa using hcc))
      simp only [runUntilStopEsp, hstepL]
      rw [if_neg (by simp)]

/-- The ESP32 iteration that starts the witness session and takes the first
sample. -/
def c6EspStart : LoopInput :=
  { buttonLow := true, nowMs := 0, nowUs := 62, adc := 2048 }

/-- 239999 further steady ESP32 iterations completing the witness session. -/
def c6EspRest : List LoopInput := steadyEsp 2048 (1 + 1) 239999

/-- Witness for the amended C6: a concretely completed session of the robust
Uno variant, one of the ESP32 variant, and a simple-variant iteration. -/
theorem c6_amended_sentinel_framing_witness :
    (∃ mid : List Ev,
      (loopRobust c3StartState c3StartInput).2 ++
        (runUntilStop (loopRobust c3StartState c3StartInput).1 c3Rest).1
        = (Ev.led true :: strtBurst) ++
            (Ev.delayMs 20 :: (mid ++ (Ev.led false :: doneBurst))) ∧
      ∀ e ∈ mid, isSampleEv e = true) ∧
    (∃ mid : List Ev,
      (loopEsp initEsp c6EspStart).2 ++
        (runUntilStopEsp (loopEsp initEsp c6EspStart).1 c6EspRest).1
        = Ev.line "START" ::
            (Ev.led true :: (Ev.delayMs 200 ::
              (mid ++ [Ev.line "STOP", Ev.led false]))) ∧
      ∀ e ∈ mid, (isSampleEv e || isLedEv e) = true) ∧
    ((loopSimple initSimple
        { buttonLow := true, nowMs := 0, nowUs := 125, adc := 512 }).2.all
      fun e => !isSentinelEv e) = true := by
  have hstateR : (loopRobust c3StartState c3StartInput).1
      = mkRec 1 ((sampleInterval * 1) % U32) true 0 := by decide
  have hdoneR : (runUntilStop (loopRobust c3StartState c3StartInput).1 c3Rest).2
      = true := by
    rw [hstateR]
    exact runUntilStop_steady 119999 1 1 true 0 100 512 (by decide) (by decide)
  have hstateE : (loopEsp initEsp c6EspStart).1
      = (⟨true, 1, (sampleIntervalEsp * 1) % U32, true⟩ : EspState) := by decide
  have hdoneE : (runUntilStopEsp (loopEsp initEsp c6EspStart).1 c6EspRest).2
      = true := by
    rw [hstateE]
    exact runUntilStopEsp_steady 239999 1 1 true 2048 (by decide) (by decide)
  exact ⟨c6_amended_sentinel_framing.1 c3StartState c3StartInput c3Rest rfl
      (by decide) hdoneR,
    c6_amended_sentinel_framing.2.1 initEsp c6EspStart c6EspRest rfl
      (by decide) hdoneE,
    c6_amended_sentinel_framing.2.2 initSimple
      { buttonLow := true, nowMs := 0, nowUs := 125, adc := 512 }⟩

/-! ## ESP32 session invariant and session sample count -/

/-- One ESP32 loop iteration preserves the session invariant
`recording = true → sampleCount < maxSamples`. -/
theorem loopEsp_inv (s : EspState) (i : LoopInput)
    (h : s.recording = true → s.sampleCount < maxSamplesEsp) :
    (loopEsp s i).1.recording = true →
      (loopEsp s i).1.sampleCount < maxSamplesEsp := by
  by_cases hr : s.recording = true
  · rw [loopEsp_of_recording s i hr]
    rcases Nat.lt_or_ge (usub32 i.nowUs s.lastSampleTime) sampleIntervalEsp with hd | hd
    · rw [sampleStepEsp_not_due _ _ hd]
      intro _; exact h hr
    · rcases Nat.lt_or_ge (s.sampleCount + 1) maxSamplesEsp with hc | hc
      · rw [sampleStepEsp_due_mid _ _ hr hd hc]
        intro _; simpa using hc
      · rw [sampleStepEsp_due_stop _ _ hr hd hc]
        intro hfalse; simp at hfalse
  · rw [loopEsp_eq]
    rcases hs : (i.buttonLow && !s.recording) with _ | _
    · rw [startStepEsp_skips _ _ hs, sampleStepEsp_of_idle _ _ (by simpa using hr)]
      intro hfalse
      simp at hfalse
      exact absurd hfalse hr
    · rw [startStepEsp_fires _ _ hs]
      rcases Nat.lt_or_ge (usub32 i.nowUs s.lastSampleTime) sampleIntervalEsp with hd | hd
      · rw [sampleStepEsp_not_due _ _ (by simpa using hd)]
        intro _
        exact (by decide : (0 : Nat) < maxSamplesEsp)
      · rw [sampleStepEsp_due_mid _ _ rfl (by simpa using hd)
          (by simpa using (by decide : (0 : Nat) + 1 < maxSamplesEsp))]
        intro _
        exact (by decide : (0 : Nat) + 1 < maxSamplesEsp)

/-- The ESP32 session invariant holds in every state reachable from power-on. -/
theorem runEsp_inv (inputs : List LoopInput) : ∀ s : EspState,
    (s.recording = true → s.sampleCount < maxSamplesEsp) →
    (runEsp s inputs).1.recording = true →
      (runEsp s inputs).1.sampleCount < maxSamplesEsp := by
  induction inputs with
  | nil => intro s h; simpa [runEsp] using h
  | cons i rest ih =>
    intro s h
    simp only [runEsp]
    exact ih _ (loopEsp_inv s i h)

/-- From a mid-session ESP32 state, the next iteration clears `recording`
exactly when it brings `sampleCount` to `maxSamples`. -/
theorem loopEsp_stop_iff (s : EspState) (i : LoopInput)
    (hrec : s.recording = true) (hcount : s.sampleCount < maxSamplesEsp) :
    ((loopEsp s i).1.recording = false ↔
      (loopEsp s i).1.sampleCount = maxSamplesEsp) := by
  rw [loopEsp_of_recording s i hrec]
  rcases Nat.lt_or_ge (usub32 i.nowUs s.lastSampleTime) sampleIntervalEsp with hd | hd
  · rw [sampleStepEsp_not_due _ _ hd]
    simp [hrec]
    omega
  · rcases Nat.lt_or_ge (s.sampleCount + 1) maxSamplesEsp with hc | hc
    · rw [sampleStepEsp_due_mid _ _ hrec hd hc]
      simp
      omega
    · rw [sampleStepEsp_due_stop _ _ hrec hd hc]
      simp
      omega

/-- Along an ESP32 run from a mid-session state that reaches the session's
end, the payload samples emitted up to the stop complete the count to
`maxSamples`. -/
theorem runUntilStopEsp_spec (inputs : List LoopInput) : ∀ s : EspState,
    s.recording = true → s.sampleCount < maxSamplesEsp →
    (runUntilStopEsp s inputs).2 = true →
    payloadCount (runUntilStopEsp s inputs).1 + s.sampleCount = maxSamplesEsp := by
  induction inputs with
  | nil => intro s _ _ hdone; simp [runUntilStopEsp] at hdone
  | cons i rest ih =>
    intro s hrec hcount hdone
    have hloop : loopEsp s i = sampleStepEsp s i := loopEsp_of_recording s i hrec
    rcases Nat.lt_or_ge (usub32 i.nowUs s.lastSampleTime) sampleIntervalEsp with hd | hd
    · have hstepL : loopEsp s i = (s, []) :=
        hloop.trans (sampleStepEsp_not_due _ _ hd)
      simp only [runUntilStopEsp, hstepL] at hdone ⊢
      rw [if_pos hrec] at hdone ⊢
      have h2 := ih s hrec hcount hdone
      simpa using h2
    · rcases Nat.lt_or_ge (s.sampleCount + 1) maxSamplesEsp with hc | hc
      · have hstepL := hloop.trans (sampleStepEsp_due_mid s i hrec hd hc)
        simp only [runUntilStopEsp, hstepL] at hdone ⊢
        simp only [if_true] at hdone ⊢
        have h2 := ih _ rfl (by simpa using hc) hdone
        dsimp only at h2
        rw [payloadCount_append]
        have h3 : payloadCount (Ev.ser (int16LEBytes (pcm12 i.adc)) ::
            (if (s.sampleCount + 1) % sampleRateEsp = 0
              then [Ev.led (!s.led)] else [])) = 1 := by
          rcases Nat.decEq ((s.sampleCount + 1) % sampleRateEsp) 0 with h0 | h0
          · rw [if_neg h0]
            simp [payloadCount, List.filter_cons, isSampleEv]
          · rw [if_pos h0]
            simp [payloadCount, List.filter_cons, isSampleEv]
        omega
      · have hstepL := hloop.trans (sampleStepEsp_due_stop s i hrec hd hc)
        simp only [runUntilStopEsp, hstepL]
        rw [if_neg (by simp)]
        have h3 : payloadCount ((Ev.ser (int16LEBytes (pcm12 i.adc)) ::
            (if (s.sampleCount + 1) % sampleRateEsp = 0
              then [Ev.led (!s.led)] else [])) ++
            [Ev.line "STOP", Ev.led false]) = 1 := by
          rcases Nat.decEq ((s.sampleCount + 1) % sampleRateEsp) 0 with h0 | h0
          · rw [if_neg h0]
            simp [payloadCount, List.filter_cons, List.filter_append, isSampleEv]
          · rw [if_pos h0]
            simp [payloadCount, List.filter_cons, List.filter_append, isSampleEv]
        show payloadCount ((Ev.ser (int16LEBytes (pcm12 i.adc)) ::
            (if (s.sampleCount + 1) % sampleRateEsp = 0
              then [Ev.led (!s.led)] else [])) ++
            [Ev.line "STOP", Ev.led false]) + s.sampleCount = maxSamplesEsp
        omega

/-- A starting ESP32 iteration emits as many payload samples as its new
sample count (none, or the first sample when one is already due). -/
theorem startStepEsp_payload (s : EspState) (i : LoopInput)
    (hidle : s.recording = false) (hstart : (loopEsp s i).1.recording = true) :
    (loopEsp s i).1.sampleCount < maxSamplesEsp ∧
    payloadCount (loopEsp s i).2 = (loopEsp s i).1.sampleCount := by
  rcases hs : (i.buttonLow && !s.recording) with _ | _
  · exfalso
    rw [loopEsp_eq, startStepEsp_skips _ _ hs,
      sampleStepEsp_of_idle _ _ (by simpa using hidle)] at hstart
    simp [hidle] at hstart
  · have hfire := startStepEsp_fires s i hs
    rcases Nat.lt_or_ge (usub32 i.nowUs s.lastSampleTime) sampleIntervalEsp with hd | hd
    · have hstep : loopEsp s i =
          ({ s with recording := true, sampleCount := 0, led := true },
            [Ev.line "START", Ev.led true, Ev.delayMs 200]) := by
        rw [loopEsp_eq, hfire, sampleStepEsp_not_due _ _ (by simpa using hd)]
        rfl
      rw [hstep]
      exact ⟨(by decide : (0 : Nat) < maxSamplesEsp), rfl⟩
    · have hstep : loopEsp s i =
          (({ recording := true
              sampleCount := 1
              lastSampleTime := i.nowUs % U32
              led := true } : EspState),
            [Ev.line "START", Ev.led true, Ev.delayMs 200,
              Ev.ser (int16LEBytes (pcm12 i.adc))]) := by
        rw [loopEsp_eq, hfire,
          sampleStepEsp_due_mid _ _ rfl (by simpa using hd)
            (by simpa using (by decide : (0 : Nat) + 1 < maxSamplesEsp))]
        simp [show ¬(((0 : Nat) + 1) % sampleRateEsp = 0) by decide]
      rw [hstep]
      refine ⟨(by decide : (1 : Nat) < maxSamplesEsp), ?_⟩
      show payloadCount [Ev.line "START", Ev.led true, Ev.delayMs 200,
        Ev.ser (int16LEBytes (pcm12 i.adc))] = 1
      simp [payloadCount, List.filter, isSampleEv]

/-- While an ESP32 session is in progress, the button level has no effect at
all: the whole iteration — next state and output — is identical. -/
theorem loopEsp_trigger_no_effect (s : EspState) (i : LoopInput)
    (h : s.recording = true) :
    loopEsp s i = loopEsp s { i with buttonLow := false } := by
  rw [loopEsp_of_recording s i h, loopEsp_of_recording s _ h]
  rfl

/-- C3: every completed recording session emits exactly
`maxSamples = sampleRate × 15` two-byte PCM payload samples, regardless of
button behaviour after the start: 120000 samples (240000 payload bytes) in
the 8 kHz robust Uno variant, and 240000 samples in the 16 kHz ESP32
variant. -/
theorem c3_exact_samples :
    (∀ (s : UnoState) (i : LoopInput) (rest : List LoopInput),
      s.recording = false → (loopRobust s i).1.recording = true →
      (runUntilStop (loopRobust s i).1 rest).2 = true →
      payloadCount ((loopRobust s i).2 ++ (runUntilStop (loopRobust s i).1 rest).1)
        = 120000) ∧
    (∀ (s : EspState) (i : LoopInput) (rest : List LoopInput),
      s.recording = false → (loopEsp s i).1.recording = true →
      (runUntilStopEsp (loopEsp s i).1 rest).2 = true →
      payloadCount ((loopEsp s i).2 ++ (runUntilStopEsp (loopEsp s i).1 rest).1)
        = 240000) := by
  constructor
  · intro s i rest hidle hstart hdone
    rcases startStep_session s i hidle hstart with ⟨hlt, hpl, _⟩
    have h2 := runUntilStop_spec rest (loopRobust s i).1 hstart hlt hdone
    rw [payloadCount_append, hpl]
    have hmax : maxSamples = 120000 := by decide
    omega
  · intro s i rest hidle hstart hdone
    rcases startStepEsp_payload s i hidle hstart with ⟨hlt, hpl⟩
    have h2 := runUntilStopEsp_spec rest (loopEsp s i).1 hstart hlt hdone
    rw [payloadCount_append, hpl]
    have hmax : maxSamplesEsp = 240000 := by decide
    omega

/-- Witness for C3: a concretely started and completed session of each
variant — 120000 samples on the robust Uno, 240000 on the ESP32. -/
theorem c3_exact_samples_witness :
    (c3StartState.recording = false ∧
      (loopRobust c3StartState c3StartInput).1.recording = true ∧
      (runUntilStop (loopRobust c3StartState c3StartInput).1 c3Rest).2 = true ∧
      payloadCount ((loopRobust c3StartState c3StartInput).2 ++
        (runUntilStop (loopRobust c3StartState c3StartInput).1 c3Rest).1)
        = 120000) ∧
    (initEsp.recording = false ∧
      (loopEsp initEsp c6EspStart).1.recording = true ∧
      (runUntilStopEsp (loopEsp initEsp c6EspStart).1 c6EspRest).2 = true ∧
      payloadCount ((loopEsp initEsp c6EspStart).2 ++
        (runUntilStopEsp (loopEsp initEsp c6EspStart).1 c6EspRest).1)
        = 240000) := by
  have hstateR : (loopRobust c3StartState c3StartInput).1
      = mkRec 1 ((sampleInterval * 1) % U32) true 0 := by decide
  have hdoneR : (runUntilStop (loopRobust c3StartState c3StartInput).1 c3Rest).2
      = true := by
    rw [hstateR]
    exact runUntilStop_steady 119999 1 1 true 0 100 512 (by decide) (by decide)
  have hstateE : (loopEsp initEsp c6EspStart).1
      = (⟨true, 1, (sampleIntervalEsp * 1) % U32, true⟩ : EspState) := by decide
  have hdoneE : (runUntilStopEsp (loopEsp initEsp c6EspStart).1 c6EspRest).2
      = true := by
    rw [hstateE]
    exact runUntilStopEsp_steady 239999 1 1 true 2048 (by decide) (by decide)
  exact ⟨⟨rfl, by decide, hdoneR,
      c3_exact_samples.1 c3StartState c3StartInput c3Rest rfl (by decide) hdoneR⟩,
    ⟨rfl, by decide, hdoneE,
      c3_exact_samples.2 initEsp c6EspStart c6EspRest rfl (by decide) hdoneE⟩⟩

/-- C4: in every state reachable from power-on at a loop-iteration boundary,
`recording = true` implies `sampleCount < maxSamples`, and from such a
state the next iteration ends the session (clears `recording`) exactly
when `sampleCount` reaches `maxSamples` — in the robust Uno variant
(maxSamples = 120000) and in the ESP32 variant (maxSamples = 240000). -/
theorem c4_session_invariant :
    (∀ inputs : List LoopInput,
      (runRobust initUno inputs).1.recording = true →
      (runRobust initUno inputs).1.sampleCount < maxSamples ∧
      ∀ i : LoopInput,
        ((loopRobust (runRobust initUno inputs).1 i).1.recording = false ↔
          (loopRobust (runRobust initUno inputs).1 i).1.sampleCount
            = maxSamples)) ∧
    (∀ inputs : List LoopInput,
      (runEsp initEsp inputs).1.recording = true →
      (runEsp initEsp inputs).1.sampleCount < maxSamplesEsp ∧
      ∀ i : LoopInput,
        ((loopEsp (runEsp initEsp inputs).1 i).1.recording = false ↔
          (loopEsp (runEsp initEsp inputs).1 i).1.sampleCount
            = maxSamplesEsp)) := by
  constructor
  · intro inputs h
    have hinv := runRobust_inv inputs initUno (by decide) h
    exact ⟨hinv, fun i => loopRobust_stop_iff _ i h hinv⟩
  · intro inputs h
    have hinv := runEsp_inv inputs initEsp (by decide) h
    exact ⟨hinv, fun i => loopEsp_stop_iff _ i h hinv⟩

/-- One ESP32 iteration that presses the button and starts a session. -/
def c4EspInputs : List LoopInput :=
  [{ buttonLow := true, nowMs := 0, nowUs := 0, adc := 512 }]

/-- Witness for C4: after a concrete press from power-on, the invariant and
the stop condition hold in both variants. -/
theorem c4_session_invariant_witness :
    ((runRobust initUno c4Inputs).1.sampleCount < maxSamples ∧
      ((loopRobust (runRobust initUno c4Inputs).1
          { buttonLow := false, nowMs := 0, nowUs := 0, adc := 0 }).1.recording
          = false ↔
        (loopRobust (runRobust initUno c4Inputs).1
          { buttonLow := false, nowMs := 0, nowUs := 0, adc := 0 }).1.sampleCount
          = maxSamples)) ∧
    ((runEsp initEsp c4EspInputs).1.sampleCount < maxSamplesEsp ∧
      ((loopEsp (runEsp initEsp c4EspInputs).1
          { buttonLow := false, nowMs := 0, nowUs := 0, adc := 0 }).1.recording
          = false ↔
        (loopEsp (runEsp initEsp c4EspInputs).1
          { buttonLow := false, nowMs := 0, nowUs := 0, adc := 0 }).1.sampleCount
          = maxSamplesEsp)) :=
  ⟨⟨(c4_session_invariant.1 c4Inputs (by decide)).1,
    (c4_session_invariant.1 c4Inputs (by decide)).2
      { buttonLow := false, nowMs := 0, nowUs := 0, adc := 0 }⟩,
   ⟨(c4_session_invariant.2 c4EspInputs (by decide)).1,
    (c4_session_invariant.2 c4EspInputs (by decide)).2
      { buttonLow := false, nowMs := 0, nowUs := 0, adc := 0 }⟩⟩

/-- C7: while a session is in progress the trigger is ignored: in the robust
Uno variant a pressed button changes neither the iteration's side effects
(no LED write, no sentinel) nor `recording`, `sampleCount` or the sampling
clock, only the debounce bookkeeping; in the ESP32 variant the whole
iteration — next state and output — is identical whether or not the button
reads pressed. -/
theorem c7_trigger_no_effect :
    (∀ (s : UnoState) (i : LoopInput), s.recording = true →
      (loopRobust s i).2 = (loopRobust s { i with buttonLow := false }).2 ∧
      (loopRobust s i).1.recording
        = (loopRobust s { i with buttonLow := false }).1.recording ∧
      (loopRobust s i).1.sampleCount
        = (loopRobust s { i with buttonLow := false }).1.sampleCount ∧
      (loopRobust s i).1.lastSampleTime
        = (loopRobust s { i with buttonLow := false }).1.lastSampleTime) ∧
    (∀ (s : EspState) (i : LoopInput), s.recording = true →
      loopEsp s i = loopEsp s { i with buttonLow := false }) :=
  ⟨loopRobust_trigger_no_effect, loopEsp_trigger_no_effect⟩

/-- Witness for C7: a concrete mid-session state and a pressed-button input
of each variant. -/
theorem c7_trigger_no_effect_witness :
    (loopRobust c2State { buttonLow := true, nowMs := 500, nowUs := 125, adc := 7 }).2
      = (loopRobust c2State
          { buttonLow := false, nowMs := 500, nowUs := 125, adc := 7 }).2 ∧
    loopEsp (⟨true, 5, 0, true⟩ : EspState)
        { buttonLow := true, nowMs := 500, nowUs := 62, adc := 7 }
      = loopEsp (⟨true, 5, 0, true⟩ : EspState)
          { buttonLow := false, nowMs := 500, nowUs := 62, adc := 7 } :=
  ⟨(c7_trigger_no_effect.1 c2State
      { buttonLow := true, nowMs := 500, nowUs := 125, adc := 7 } (by decide)).1,
   c7_trigger_no_effect.2 (⟨true, 5, 0, true⟩ : EspState)
      { buttonLow := true, nowMs := 500, nowUs := 62, adc := 7 } (by decide)⟩
